import Mathlib

/-!
# Verification of the Avogadro Chemical JSON codec (`CjsonFormat`)

A shallow embedding of `src/avogadro/io/cjsonformat.cpp` (the
`CjsonFormat::read` and `CjsonFormat::write` functions) together with the
parts of their collaborators (`Json::Value` from jsoncpp, `Core::Molecule`,
`Core::UnitCell`, `Core::CrystalTools`) that the codec exercises.

Numbers on the wire and in the model are represented by an arbitrary linear
ordered field `α` with a floor function, so that every definition is
executable (instantiating `α := ℚ`) while theorems may instantiate
`α := ℝ` where `π` is needed.  The two conversion constants `DEG_TO_RAD`
and `RAD_TO_DEG` and the fractional-coordinate transformer of
`CrystalTools` live outside this repository slice, so `read` and `write`
take them as parameters; theorems instantiate them per the spec
(`π/180`, `180/π`, a pair of mutually inverse linear maps).
-/

set_option linter.unusedSectionVars false
set_option linter.unusedTactic false
set_option linter.unreachableTactic false

namespace CJson

/-- A parsed JSON document, mirroring jsoncpp's `Json::Value` variant:
null, boolean, numeric, string, array, object.  (jsoncpp distinguishes
int/uint/real; all three answer `isNumeric()` and their arithmetic
accessors agree on the mathematical value, so one numeric constructor
over the field `α` represents them.)  Objects are association lists keyed
by strings. -/
inductive JValue (α : Type) where
  | null : JValue α
  | bool (b : Bool) : JValue α
  | num (x : α) : JValue α
  | str (s : String) : JValue α
  | arr (elems : List (JValue α)) : JValue α
  | obj (members : List (String × JValue α)) : JValue α

namespace JValue

variable {α : Type}

/-- Association-list lookup used by `obj` member access. -/
def lookupMember (l : List (String × JValue α)) (k : String) : JValue α :=
  match l with
  | [] => JValue.null
  | (k', v) :: rest => if k' = k then v else lookupMember rest k

/-- jsoncpp `Value::operator[](const char*)`: on an object, the member
(`null` if absent); on `null`, `null` (jsoncpp treats null as an empty
object).  Other receiver types assert in jsoncpp; the codec only reaches
those cases after type checks, and they are mapped to `null` here. -/
def getMember (v : JValue α) (k : String) : JValue α :=
  match v with
  | obj members => lookupMember members k
  | _ => JValue.null

/-- jsoncpp `Value::size()`: number of array elements or object members,
`0` for every other type. -/
def jSize (v : JValue α) : Nat :=
  match v with
  | arr elems => elems.length
  | obj members => members.length
  | _ => 0

/-- jsoncpp `Value::empty()`: true for `null` and for arrays/objects of
size zero; false for every scalar (including `0`, `false` and `""`). -/
def isEmpty (v : JValue α) : Bool :=
  match v with
  | null => true
  | arr elems => elems.isEmpty
  | obj members => members.isEmpty
  | _ => false

/-- `type() == Json::objectValue` / `isObject()` (for non-null values these
agree; `isObject` in jsoncpp is also true of `null`, but the codec only
uses the strict `type()` comparison and `isObject` after a non-empty
check, where they coincide on `obj`). -/
def isObjectT (v : JValue α) : Bool :=
  match v with
  | obj _ => true
  | _ => false

/-- `isArray()` restricted to real arrays / `type() == Json::arrayValue`
(the codec never applies `isArray` to `null` before a presence check
where the distinction with jsoncpp's null-tolerant `isArray()` could
matter: a `null` simply takes the non-array branch either way). -/
def isArrayT (v : JValue α) : Bool :=
  match v with
  | arr _ => true
  | _ => false

/-- jsoncpp `isString()`. -/
def isStringT (v : JValue α) : Bool :=
  match v with
  | str _ => true
  | _ => false

/-- jsoncpp `isNumeric()`: true for int/uint/real and also for booleans
(jsoncpp counts `booleanValue` as integral). -/
def isNumericT (v : JValue α) : Bool :=
  match v with
  | num _ => true
  | bool _ => true
  | _ => false

/-- jsoncpp `Value::get(index, default)`: the array element when the index
is in range, otherwise the default.  (Only applied to arrays by the
codec.) -/
def jGet (v : JValue α) (i : Nat) (d : JValue α) : JValue α :=
  match v with
  | arr elems => (elems.getD i d)
  | _ => d

/-- jsoncpp `asDouble()` on the values the codec feeds it: a number is its
own value, booleans coerce to `1`/`0`, `null` to `0`.  (Strings, arrays
and objects assert in jsoncpp; the codec reaches `asDouble` only after
`isNumeric` checks or on array elements, and those junk cases are mapped
to `0`.) -/
def asDouble [Zero α] [One α] (v : JValue α) : α :=
  match v with
  | num x => x
  | bool b => if b then 1 else 0
  | _ => 0

/-- jsoncpp `asString()` on the values the codec feeds it (after an
`isString()` check): the string, `""` otherwise. -/
def asString (v : JValue α) : String :=
  match v with
  | str s => s
  | _ => ""

end JValue

/-- C++ `double → int` conversion (used by jsoncpp `asInt()` on a real
value): truncation toward zero. -/
def trunc {α : Type} [LinearOrderedRing α] [FloorRing α] (x : α) : ℤ :=
  if 0 ≤ x then ⌊x⌋ else ⌈x⌉

/-- jsoncpp `asInt()` on the values the codec feeds it: a number truncates
toward zero, booleans coerce to `1`/`0`, `null` to `0` (junk cases to
`0`, as for `asDouble`). -/
def JValue.asInt {α : Type} [LinearOrderedRing α] [FloorRing α]
    (v : JValue α) : ℤ :=
  match v with
  | JValue.num x => trunc x
  | JValue.bool b => if b then 1 else 0
  | _ => 0

/-- `static_cast<unsigned char>` of an `int`: reduction modulo 2⁸. -/
def toUChar (z : ℤ) : Nat := (z % 256).toNat

/-- `static_cast<Avogadro::Index>` (= `size_t`, 64-bit) of an `int`:
reduction modulo 2⁶⁴. -/
def toIndex (z : ℤ) : Nat := (z % (2 ^ 64)).toNat

/-- `static_cast<Json::Value::UInt>` (= `unsigned int`, 32-bit) of a
`size_t`: reduction modulo 2³². -/
def toJsonUInt (n : Nat) : Nat := n % 2 ^ 32

/-- A document integer entry written from a `Nat` (jsoncpp stores it as
an integral value; its numeric value in the field `α`). -/
def jNatNum {α : Type} [NatCast α] (n : Nat) : JValue α :=
  JValue.num (Nat.cast n)

/-- A triple of coordinates (`Avogadro::Vector3`). -/
structure V3 (α : Type) where
  x : α
  y : α
  z : α
  deriving DecidableEq

/-- A pair of coordinates (`Avogadro::Vector2`). -/
structure V2 (α : Type) where
  x : α
  y : α
  deriving DecidableEq

/-- `Avogadro::Core::UnitCell`: the six lattice parameters, angles stored
in radians in the model. -/
structure UnitCell (α : Type) where
  a : α
  b : α
  c : α
  alpha : α
  beta : α
  gamma : α
  deriving DecidableEq

/-- A bond of the molecular graph: the two atom indices (as stored by
`Molecule::addBond` from the `Atom` proxies' indices) and the 8-bit bond
order. -/
structure Bond where
  atom1 : Nat
  atom2 : Nat
  order : Nat
  deriving DecidableEq

/-- SCF method tag of a Gaussian basis set (`Core::ScfType`); values other
than the three recognized ones are encoded as "unknown". -/
inductive ScfKind where
  | rhf : ScfKind
  | rohf : ScfKind
  | uhf : ScfKind
  | other : ScfKind
  deriving DecidableEq

/-- Basis-set descriptor attached to a molecule: `gaussian` records
whether the object is a `GaussianSet` (the `dynamic_cast` in the encoder
succeeds), `scf` its SCF tag. -/
structure BasisDescr where
  gaussian : Bool
  scf : ScfKind
  deriving DecidableEq

/-- Modelled from the spec (§3, §6): `Avogadro::Core::Molecule`, which is
not part of this repository slice.  It holds an ordered sequence of
atomic numbers, 3D/2D position arrays (which may be shorter than the atom
list when positions were never set), an ordered bond list, an optional
unit cell, an optional basis-set descriptor, and a string-keyed metadata
map (only string values are ever stored by this codec). -/
structure Molecule (α : Type) where
  atomicNumbers : List Nat
  positions3d : List (V3 α)
  positions2d : List (V2 α)
  bonds : List Bond
  unitCell : Option (UnitCell α)
  basisSet : Option BasisDescr
  dataMap : List (String × String)
  deriving DecidableEq

namespace Molecule

variable {α : Type}

/-- The empty molecule a caller hands to `read`. -/
def empty : Molecule α :=
  ⟨[], [], [], [], none, none, []⟩

/-- `Molecule::atomCount()`. -/
def atomCount (m : Molecule α) : Nat := m.atomicNumbers.length

/-- Modelled from the spec (§6 "append-atom(atomic-number) → atom
handle"): `Molecule::addAtom` appends one atomic number; position arrays
are untouched. -/
def addAtom (m : Molecule α) (z : Nat) : Molecule α :=
  { m with atomicNumbers := m.atomicNumbers ++ [z] }

/-- Resize a list to length `n`, padding with `d` (C++
`std::vector::resize`). -/
def resizeTo (l : List (V3 α)) (n : Nat) (d : V3 α) : List (V3 α) :=
  l.take n ++ List.replicate (n - l.length) d

/-- Resize for 2D position arrays. -/
def resizeTo2 (l : List (V2 α)) (n : Nat) (d : V2 α) : List (V2 α) :=
  l.take n ++ List.replicate (n - l.length) d

/-- Modelled from the spec (§6 "set-atom-position-3d(atom handle,
vector)"): `Atom::setPosition3d` ensures the position array has exactly
`atomCount` entries (padding with the zero vector) and assigns entry
`i`. -/
def setPosition3d [Zero α] (m : Molecule α) (i : Nat) (v : V3 α) :
    Molecule α :=
  let ps := if m.positions3d.length = m.atomCount then m.positions3d
            else resizeTo m.positions3d m.atomCount ⟨0, 0, 0⟩
  { m with positions3d := ps.set i v }

/-- Modelled from the spec (§6): `Atom::setPosition2d`, as for 3D. -/
def setPosition2d [Zero α] (m : Molecule α) (i : Nat) (v : V2 α) :
    Molecule α :=
  let ps := if m.positions2d.length = m.atomCount then m.positions2d
            else resizeTo2 m.positions2d m.atomCount ⟨0, 0⟩
  { m with positions2d := ps.set i v }

/-- Modelled from the spec (§4.1 step 8, §6 "append-bond"):
`Molecule::addBond` appends a bond between two atom indices — the spec
fixes the default order of a newly added bond to 1.  No range check is
performed on the indices (`Molecule::atom(i)` merely wraps the index in a
proxy). -/
def addBond (m : Molecule α) (i j : Nat) : Molecule α :=
  { m with bonds := m.bonds ++ [⟨i, j, 1⟩] }

/-- `molecule.bond(i).setOrder(o)`: replace the order of the `i`-th bond. -/
def setBondOrder (m : Molecule α) (i : Nat) (o : Nat) : Molecule α :=
  { m with bonds :=
      match m.bonds.get? i with
      | some b => m.bonds.set i ⟨b.atom1, b.atom2, o⟩
      | none => m.bonds }

/-- `Molecule::setData(key, value)` for string values: insert or replace. -/
def setData (m : Molecule α) (k v : String) : Molecule α :=
  { m with dataMap :=
      if (m.dataMap.lookup k).isSome
      then m.dataMap.map (fun p => if p.1 = k then (k, v) else p)
      else m.dataMap ++ [(k, v)] }

/-- `Molecule::data(key)` restricted to the string values this codec
stores (`none` plays the role of "not present or not of string type"). -/
def data (m : Molecule α) (k : String) : Option String :=
  m.dataMap.lookup k

/-- `Molecule::setUnitCell` (the model takes ownership). -/
def setUnitCell (m : Molecule α) (uc : UnitCell α) : Molecule α :=
  { m with unitCell := some uc }

end Molecule

/-- Modelled from the spec (§4.3):
`CrystalTools::setFractionalCoordinates(molecule, fcoords)` converts each
fractional coordinate to Cartesian through the Coordinate Transformer
(`fromFrac`, a linear map determined by the unit cell) and replaces the
molecule's 3D positions wholesale.  Only called when a unit cell is
attached. -/
def setFractionalCoordinates {α : Type}
    (fromFrac : UnitCell α → V3 α → V3 α) (m : Molecule α)
    (fcoords : List (V3 α)) : Molecule α :=
  match m.unitCell with
  | some uc => { m with positions3d := fcoords.map (fromFrac uc) }
  | none => m

/-- Outcome of `CjsonFormat::read`: the (possibly partially populated)
molecule, the boolean return value, and the messages accumulated through
`appendError` (fatal errors and soft warnings alike). -/
structure ReadResult (α : Type) where
  mol : Molecule α
  ok : Bool
  errors : List String
  deriving DecidableEq

section Read

variable {α : Type} [LinearOrderedField α] [FloorRing α]

open JValue

/-- `CjsonFormat::read`, the `name`/`inchi` block (lines 77–82): each is
copied into the metadata map only when present and of string type. -/
def readNameInchi (root : JValue α) (m : Molecule α) : Molecule α :=
  let vName := root.getMember "name"
  let m1 := if !vName.isEmpty && vName.isStringT
            then m.setData "name" vName.asString else m
  let vInchi := root.getMember "inchi"
  if !vInchi.isEmpty && vInchi.isStringT
  then m1.setData "inchi" vInchi.asString else m1

/-- `CjsonFormat::read`, the `unit cell` block (lines 84–104): a
non-object value is skipped silently; an object must carry six numeric
fields, angles are multiplied by `d2r` (`DEG_TO_RAD`) on ingestion. -/
def readUnitCellStep (d2r : α) (root : JValue α) (m : Molecule α) :
    ReadResult α :=
  let value := root.getMember "unit cell"
  if value.isObjectT then
    if !(value.getMember "a").isNumericT ||
       !(value.getMember "b").isNumericT ||
       !(value.getMember "c").isNumericT ||
       !(value.getMember "alpha").isNumericT ||
       !(value.getMember "beta").isNumericT ||
       !(value.getMember "gamma").isNumericT then
      ⟨m, false, ["Invalid unit cell specification: a, b, c, alpha, beta, gamma must be present and numeric."]⟩
    else
      ⟨m.setUnitCell
        ⟨(value.getMember "a").asDouble,
         (value.getMember "b").asDouble,
         (value.getMember "c").asDouble,
         (value.getMember "alpha").asDouble * d2r,
         (value.getMember "beta").asDouble * d2r,
         (value.getMember "gamma").asDouble * d2r⟩, true, []⟩
  else ⟨m, true, []⟩

/-- Sequencing of two decoder sections sharing the accumulated error log:
when the first succeeds the second runs on its molecule (the `appendError`
log persists); when it fails decoding stops there (the C++ early
`return false`). -/
def seqR (r : ReadResult α) (k : Molecule α → ReadResult α) : ReadResult α :=
  if r.ok then
    ⟨(k r.mol).mol, (k r.mol).ok, r.errors ++ (k r.mol).errors⟩
  else r

/-- `CjsonFormat::read`, the `coords.3d` sub-block (lines 146–158). -/
def read3dBlock (v3 : JValue α) (atomCount : Nat) (m : Molecule α) :
    ReadResult α :=
  if v3.isArrayT then
    if v3.jSize ≠ 0 ∧ atomCount ≠ v3.jSize / 3 then
      ⟨m, false, ["Error: number of elements != number of 3D coordinates."]⟩
    else
      ⟨(List.range atomCount).foldl (fun mm i =>
         mm.setPosition3d i
           ⟨(v3.jGet (3 * i + 0) (JValue.num 0)).asDouble,
            (v3.jGet (3 * i + 1) (JValue.num 0)).asDouble,
            (v3.jGet (3 * i + 2) (JValue.num 0)).asDouble⟩) m, true, []⟩
  else ⟨m, true, []⟩

/-- `CjsonFormat::read`, the `coords.2d` sub-block (lines 160–171). -/
def read2dBlock (v2 : JValue α) (atomCount : Nat) (m : Molecule α) :
    ReadResult α :=
  if v2.isArrayT then
    if v2.jSize ≠ 0 ∧ atomCount ≠ v2.jSize / 2 then
      ⟨m, false, ["Error: number of elements != number of 2D coordinates."]⟩
    else
      ⟨(List.range atomCount).foldl (fun mm i =>
         mm.setPosition2d i
           ⟨(v2.jGet (2 * i + 0) (JValue.num 0)).asDouble,
            (v2.jGet (2 * i + 1) (JValue.num 0)).asDouble⟩) m, true, []⟩
  else ⟨m, true, []⟩

/-- `CjsonFormat::read`, the `coords.3d fractional` sub-block (lines
173–194): requires an attached unit cell before anything else, then the
cardinality check, then conversion through the Coordinate Transformer. -/
def readFracBlock (fromFrac : UnitCell α → V3 α → V3 α) (vf : JValue α)
    (atomCount : Nat) (m : Molecule α) : ReadResult α :=
  if vf.isArrayT then
    if m.unitCell.isNone then
      ⟨m, false, ["Cannot interpret fractional coordinates without unit cell."]⟩
    else if vf.jSize ≠ 0 ∧ atomCount ≠ vf.jSize / 3 then
      ⟨m, false, ["Error: number of elements != number of fractional coordinates."]⟩
    else
      let fcoords := (List.range atomCount).map (fun i =>
        (⟨(vf.jGet (i * 3 + 0) (JValue.num 0)).asDouble,
          (vf.jGet (i * 3 + 1) (JValue.num 0)).asDouble,
          (vf.jGet (i * 3 + 2) (JValue.num 0)).asDouble⟩ : V3 α))
      ⟨setFractionalCoordinates fromFrac m fcoords, true, []⟩
  else ⟨m, true, []⟩

/-- `CjsonFormat::read`, the `atoms.coords` block (lines 144–195):
independently for `3d`, `2d` and `3d fractional`, an array value is
length-checked (tolerating length zero) against the atom count by
integer division and, if acceptable, positions are written; fractional
coordinates additionally require an attached unit cell and go through the
Coordinate Transformer. -/
def readCoordsStep (fromFrac : UnitCell α → V3 α → V3 α)
    (atoms : JValue α) (atomCount : Nat) (m : Molecule α) : ReadResult α :=
  let coords := atoms.getMember "coords"
  if coords.isEmpty then ⟨m, true, []⟩
  else
    seqR (read3dBlock (coords.getMember "3d") atomCount m) (fun m1 =>
      seqR (read2dBlock (coords.getMember "2d") atomCount m1) (fun m2 =>
        readFracBlock fromFrac (coords.getMember "3d fractional") atomCount m2))

/-- `CjsonFormat::read`, the `atoms` block (lines 106–195): `atoms` must
be a present, non-empty object, `atoms.elements` likewise,
`atoms.elements.number` a present non-empty array whose entries are cast
to 8-bit atomic numbers, one appended atom per entry; then the
coordinate block runs with the atom count fixed. -/
def readAtomsStep (fromFrac : UnitCell α → V3 α → V3 α)
    (root : JValue α) (m : Molecule α) : ReadResult α :=
  let atoms := root.getMember "atoms"
  if atoms.isEmpty then ⟨m, false, ["Error: no \"atom\" key found"]⟩
  else if !atoms.isObjectT then
    ⟨m, false, ["Error: \"atom\" is not of type object"]⟩
  else
    let elems := atoms.getMember "elements"
    if elems.isEmpty then
      ⟨m, false, ["Error: no \"atoms.elements\" key found"]⟩
    else if !elems.isObjectT then
      ⟨m, false, ["Error: \"atoms.elements\" is not of type object"]⟩
    else
      let nums := elems.getMember "number"
      if nums.isEmpty then
        ⟨m, false, ["Error: no \"atoms.elements.number\" key found"]⟩
      else if nums.isArrayT then
        let atomCount := nums.jSize
        let m1 := (List.range atomCount).foldl (fun mm i =>
          mm.addAtom (toUChar ((nums.jGet i (JValue.num 0)).asInt))) m
        readCoordsStep fromFrac atoms atomCount m1
      else ⟨m, false, ["Error: \"atoms.elements.number\" is not of type array"]⟩

/-- `CjsonFormat::read`, the `bonds.connections.index` sub-block (lines
206–218): a non-array value yields a soft warning and zero bonds, an
array of length 2M yields M bonds of consecutive index pairs (each entry
cast through `int` to `Index` with no range check). -/
def readBondIdxBlock (value : JValue α) (m : Molecule α) :
    Molecule α × Nat × List String :=
  if value.isArrayT then
    ((List.range (value.jSize / 2)).foldl (fun mm i =>
       mm.addBond (toIndex ((value.jGet (2 * i + 0) (JValue.num 0)).asInt))
                  (toIndex ((value.jGet (2 * i + 1) (JValue.num 0)).asInt))) m,
     value.jSize / 2, [])
  else (m, 0, ["Warning, no bonding information found."])

/-- `CjsonFormat::read`, the `bonds.order` sub-block (lines 220–229),
running after the index block produced `bondCount` bonds and possibly a
warning. -/
def readOrderBlock (ov : JValue α) (bondCount : Nat) (warns : List String)
    (m : Molecule α) : ReadResult α :=
  if ov.isArrayT then
    if bondCount ≠ ov.jSize then
      ⟨m, false, warns ++ ["Error: number of bonds != number of bond orders."]⟩
    else
      ⟨(List.range bondCount).foldl (fun mm i =>
         mm.setBondOrder i (toUChar ((ov.jGet i (JValue.num 1)).asInt))) m,
       true, warns⟩
  else ⟨m, true, warns⟩

/-- `CjsonFormat::read`, the `bonds` block entry (lines 197–230). -/
def readBondsStep (root : JValue α) (m : Molecule α) : ReadResult α :=
  let bonds := root.getMember "bonds"
  if bonds.isEmpty then ⟨m, true, []⟩
  else
    let conn := bonds.getMember "connections"
    if conn.isEmpty then
      ⟨m, false, ["Error: no \"bonds.connections\" key found"]⟩
    else
      match readBondIdxBlock (conn.getMember "index") m with
      | (m1, bondCount, warns) =>
          readOrderBlock (bonds.getMember "order") bondCount warns m1

/-- `CjsonFormat::read` (lines 55–233) on an already-parsed document
(stream parsing belongs to the external JSON library): the identity and
structure checks run top-down, each section mutating the caller's
molecule, stopping at the first fatal error. -/
def read (d2r : α) (fromFrac : UnitCell α → V3 α → V3 α)
    (root : JValue α) (mol : Molecule α) : ReadResult α :=
  if !root.isObjectT then
    ⟨mol, false, ["Error: Input is not a JSON object."]⟩
  else if (root.getMember "chemical json").isEmpty then
    ⟨mol, false, ["Error: no \"chemical json\" key found."]⟩
  else
    seqR (readUnitCellStep d2r root (readNameInchi root mol)) (fun m2 =>
      seqR (readAtomsStep fromFrac root m2) (fun m3 =>
        readBondsStep root m3))

end Read

section Write

variable {α : Type} [LinearOrderedField α]

/-- The `scfType` label emitted for a Gaussian basis set (lines 265–279):
one of the closed enumeration, with "unknown" as fallback. -/
def scfLabel : ScfKind → String
  | ScfKind.rhf => "rhf"
  | ScfKind.rohf => "rohf"
  | ScfKind.uhf => "uhf"
  | ScfKind.other => "unknown"

/-- Flatten a 3D position list into the x,y,z-interleaved JSON array the
encoder appends component by component. -/
def flat3 (l : List (V3 α)) : List (JValue α) :=
  l.flatMap (fun v => [JValue.num v.x, JValue.num v.y, JValue.num v.z])

/-- Flatten a 2D position list, as for `flat3`. -/
def flat2 (l : List (V2 α)) : List (JValue α) :=
  l.flatMap (fun v => [JValue.num v.x, JValue.num v.y])

/-- `CjsonFormat::write`, the coordinate members of `atoms.coords` (lines
291–330, reached only when at least one atom exists): when every atom has
a 3D position, exactly one of `3d fractional` (unit cell attached,
computed through the Coordinate Transformer `toFrac`) or `3d` is
emitted; independently `2d` when every atom has a 2D position; the
`coords` object exists only if some member was assigned. -/
def writeCoords (toFrac : UnitCell α → V3 α → V3 α) (m : Molecule α) :
    List (String × JValue α) :=
  let part3 : List (String × JValue α) :=
    if m.positions3d.length = m.atomCount then
      match m.unitCell with
      | some uc =>
          [("3d fractional", JValue.arr (flat3 (m.positions3d.map (toFrac uc))))]
      | none => [("3d", JValue.arr (flat3 m.positions3d))]
    else []
  let part2 : List (String × JValue α) :=
    if m.positions2d.length = m.atomCount then
      [("2d", JValue.arr (flat2 m.positions2d))]
    else []
  if part3.length + part2.length = 0 then []
  else [("coords", JValue.obj (part3 ++ part2))]

/-- The optional `name` member (lines 242–243). -/
def nameMember (m : Molecule α) : List (String × JValue α) :=
  match m.data "name" with
  | some s => [("name", JValue.str s)]
  | none => []

/-- The optional `inchi` member (lines 244–245). -/
def inchiMember (m : Molecule α) : List (String × JValue α) :=
  match m.data "inchi" with
  | some s => [("inchi", JValue.str s)]
  | none => []

/-- The optional `unit cell` member (lines 247–256), angles converted
back to degrees by `r2d` = `RAD_TO_DEG`. -/
def unitCellMember (r2d : α) (m : Molecule α) : List (String × JValue α) :=
  match m.unitCell with
  | some uc =>
      [("unit cell", JValue.obj
        [("a", JValue.num uc.a),
         ("b", JValue.num uc.b),
         ("c", JValue.num uc.c),
         ("alpha", JValue.num (uc.alpha * r2d)),
         ("beta", JValue.num (uc.beta * r2d)),
         ("gamma", JValue.num (uc.gamma * r2d))])]
  | none => []

/-- The optional `basisSet` member (lines 258–282): emitted only when the
attached basis set is a `GaussianSet` (the `dynamic_cast` succeeds). -/
def basisSetMember (m : Molecule α) : List (String × JValue α) :=
  match m.basisSet with
  | some bd =>
      if bd.gaussian then
        [("basisSet", JValue.obj
          [("basisType", JValue.str "GTO"),
           ("scfType", JValue.str (scfLabel bd.scf))])]
      else []
  | none => []

/-- The `atoms` member (lines 284–331), emitted when at least one atom
exists: the atomic-number array plus the coordinate members. -/
def atomsMember (toFrac : UnitCell α → V3 α → V3 α) (m : Molecule α) :
    List (String × JValue α) :=
  if m.atomCount ≠ 0 then
    [("atoms", JValue.obj
      ([("elements", JValue.obj
          [("number", JValue.arr (m.atomicNumbers.map jNatNum))])]
       ++ writeCoords toFrac m))]
  else []

/-- The `bonds` member (lines 333–345), emitted when at least one bond
exists: the flattened index pairs (cast to jsoncpp's 32-bit `UInt`) and
the parallel order array. -/
def bondsMember (m : Molecule α) : List (String × JValue α) :=
  if m.bonds.length ≠ 0 then
    [("bonds", JValue.obj
      [("connections", JValue.obj
         [("index", JValue.arr (m.bonds.flatMap (fun b =>
            [jNatNum (toJsonUInt b.atom1),
             jNatNum (toJsonUInt b.atom2)])))]),
       ("order", JValue.arr (m.bonds.map (fun b => jNatNum b.order)))])]
  else []

/-- `CjsonFormat::write` (lines 235–350), producing the document tree that
is then serialized (serialization itself belongs to the external JSON
library): the identity marker is emitted unconditionally as `0`, then
optional `name`/`inchi`/`unit cell` (angles back to degrees via `r2d` =
`RAD_TO_DEG`)/`basisSet` members, the atom arrays when at least one atom
exists, and the bond arrays when at least one bond exists. -/
def write (r2d : α) (toFrac : UnitCell α → V3 α → V3 α) (m : Molecule α) :
    JValue α :=
  JValue.obj
    ([("chemical json", JValue.num 0)]
     ++ nameMember m ++ inchiMember m ++ unitCellMember r2d m
     ++ basisSetMember m ++ atomsMember toFrac m ++ bondsMember m)

end Write

/-! ## Characterizations of the decoder's loops -/

section FoldLemmas

variable {α : Type} [LinearOrderedField α] [FloorRing α]

theorem foldl_addAtom {β : Type} (l : List β) (f : β → Nat) (m : Molecule α) :
    l.foldl (fun mm i => mm.addAtom (f i)) m
      = { m with atomicNumbers := m.atomicNumbers ++ l.map f } := by
  induction l generalizing m with
  | nil => simp
  | cons a t ih => rw [List.foldl_cons, ih]; simp [Molecule.addAtom]

theorem foldl_addBond {β : Type} (l : List β) (f g : β → Nat) (m : Molecule α) :
    l.foldl (fun mm i => mm.addBond (f i) (g i)) m
      = { m with bonds := m.bonds ++ l.map (fun i => ⟨f i, g i, 1⟩) } := by
  induction l generalizing m with
  | nil => simp
  | cons a t ih => rw [List.foldl_cons, ih]; simp [Molecule.addBond]

/-- Pure-list core of the position-setting loop: setting entries
`k, k+1, …, k+j-1` of a list of length `k+j` rewrites its tail past `k`. -/
theorem foldl_range'_set {β : Type} (f : Nat → β) (j : Nat) :
    ∀ (k : Nat) (ps : List β), ps.length = k + j →
      (List.range' k j).foldl (fun l i => l.set i (f i)) ps
        = ps.take k ++ (List.range' k j).map f := by
  induction j with
  | zero =>
      intro k ps h
      simp [List.take_of_length_le (by omega : ps.length ≤ k)]
  | succ j ih =>
      intro k ps h
      have hk : k < ps.length := by omega
      rw [List.range'_succ, List.foldl_cons, List.map_cons,
        ih (k + 1) (ps.set k (f k))
          (show (ps.set k (f k)).length = k + 1 + j by
            rw [List.length_set]; omega)]
      have h1 : (ps.set k (f k)).take (k + 1) = ps.take k ++ [f k] := by
        rw [List.take_succ, List.set_take,
          List.set_eq_of_length_le (by simp),
          List.getElem?_set_self hk]
        rfl
      rw [h1, List.append_assoc]
      rfl

/-- Once the threaded position array has the molecule's atom count, the
3D-position loop acts entry-wise as `List.set`. -/
theorem foldl_setPosition3d_aligned (l : List Nat) (f : Nat → V3 α) :
    ∀ (m : Molecule α), m.positions3d.length = m.atomCount →
      l.foldl (fun mm i => mm.setPosition3d i (f i)) m
        = { m with positions3d :=
              l.foldl (fun ps i => ps.set i (f i)) m.positions3d } := by
  induction l with
  | nil => intro m _; simp
  | cons a t ih =>
      intro m h
      rw [List.foldl_cons, List.foldl_cons]
      have hstep : m.setPosition3d a (f a)
          = { m with positions3d := m.positions3d.set a (f a) } := by
        simp [Molecule.setPosition3d, h]
      rw [hstep, ih _ (by simpa [Molecule.atomCount] using h)]

/-- The decoder's 3D-position loop on a molecule with `n ≥ 1` atoms ends
with the positions array exactly `[f 0, …, f (n-1)]`. -/
theorem foldl_setPosition3d (m : Molecule α) (f : Nat → V3 α)
    (h : 0 < m.atomCount) :
    (List.range m.atomCount).foldl (fun mm i => mm.setPosition3d i (f i)) m
      = { m with positions3d := (List.range m.atomCount).map f } := by
  obtain ⟨n, hn⟩ : ∃ n, m.atomCount = n + 1 :=
    ⟨m.atomCount - 1, by omega⟩
  set ps0 := (if m.positions3d.length = m.atomCount then m.positions3d
      else Molecule.resizeTo m.positions3d m.atomCount ⟨0, 0, 0⟩) with hps0
  have hlen0 : ps0.length = m.atomCount := by
    rw [hps0]; split
    · assumption
    · simp [Molecule.resizeTo]; omega
  have hstep : m.setPosition3d 0 (f 0)
      = { m with positions3d := ps0.set 0 (f 0) } := by
    simp only [Molecule.setPosition3d]
  have hlen1 : (ps0.set 0 (f 0)).length = m.atomCount := by
    simp [hlen0]
  have hrange : List.range m.atomCount = 0 :: List.range' 1 n := by
    rw [List.range_eq_range', hn, List.range'_succ]
  rw [hrange, List.foldl_cons, hstep]
  rw [foldl_setPosition3d_aligned (List.range' 1 n) f _
    (by simpa [Molecule.atomCount] using hlen1)]
  have hinner : (List.range' 1 n).foldl (fun ps i => ps.set i (f i))
      (ps0.set 0 (f 0))
      = (ps0.set 0 (f 0)).take 1 ++ (List.range' 1 n).map f :=
    foldl_range'_set f n 1 _ (by rw [hlen1, hn]; omega)
  have htake : (ps0.set 0 (f 0)).take 1 = [f 0] := by
    rw [List.take_succ, List.getElem?_set_self (by omega)]
    simp
  simp only [hinner, htake, hrange]
  simp

/-- `foldl_setPosition3d` with the loop bound given as any expression
equal to the molecule's atom count (the decoder's loops run over the
freshly fixed atom count). -/
theorem foldl_setPosition3d_count (m : Molecule α) (f : Nat → V3 α)
    (n : Nat) (hn : n = m.atomCount) (h : 0 < n) :
    (List.range n).foldl (fun mm i => mm.setPosition3d i (f i)) m
      = { m with positions3d := (List.range n).map f } := by
  subst hn
  exact foldl_setPosition3d m f h

/-- 2D analogue of `foldl_setPosition3d_aligned`. -/
theorem foldl_setPosition2d_aligned (l : List Nat) (f : Nat → V2 α) :
    ∀ (m : Molecule α), m.positions2d.length = m.atomCount →
      l.foldl (fun mm i => mm.setPosition2d i (f i)) m
        = { m with positions2d :=
              l.foldl (fun ps i => ps.set i (f i)) m.positions2d } := by
  induction l with
  | nil => intro m _; simp
  | cons a t ih =>
      intro m h
      rw [List.foldl_cons, List.foldl_cons]
      have hstep : m.setPosition2d a (f a)
          = { m with positions2d := m.positions2d.set a (f a) } := by
        simp [Molecule.setPosition2d, h]
      rw [hstep, ih _ (by simpa [Molecule.atomCount] using h)]

/-- 2D analogue of `foldl_setPosition3d`. -/
theorem foldl_setPosition2d (m : Molecule α) (f : Nat → V2 α)
    (h : 0 < m.atomCount) :
    (List.range m.atomCount).foldl (fun mm i => mm.setPosition2d i (f i)) m
      = { m with positions2d := (List.range m.atomCount).map f } := by
  obtain ⟨n, hn⟩ : ∃ n, m.atomCount = n + 1 :=
    ⟨m.atomCount - 1, by omega⟩
  set ps0 := (if m.positions2d.length = m.atomCount then m.positions2d
      else Molecule.resizeTo2 m.positions2d m.atomCount ⟨0, 0⟩) with hps0
  have hlen0 : ps0.length = m.atomCount := by
    rw [hps0]; split
    · assumption
    · simp [Molecule.resizeTo2]; omega
  have hstep : m.setPosition2d 0 (f 0)
      = { m with positions2d := ps0.set 0 (f 0) } := by
    simp only [Molecule.setPosition2d]
  have hlen1 : (ps0.set 0 (f 0)).length = m.atomCount := by
    simp [hlen0]
  have hrange : List.range m.atomCount = 0 :: List.range' 1 n := by
    rw [List.range_eq_range', hn, List.range'_succ]
  rw [hrange, List.foldl_cons, hstep]
  rw [foldl_setPosition2d_aligned (List.range' 1 n) f _
    (by simpa [Molecule.atomCount] using hlen1)]
  have hinner : (List.range' 1 n).foldl (fun ps i => ps.set i (f i))
      (ps0.set 0 (f 0))
      = (ps0.set 0 (f 0)).take 1 ++ (List.range' 1 n).map f :=
    foldl_range'_set f n 1 _ (by rw [hlen1, hn]; omega)
  have htake : (ps0.set 0 (f 0)).take 1 = [f 0] := by
    rw [List.take_succ, List.getElem?_set_self (by omega)]
    simp
  simp only [hinner, htake, hrange]
  simp

/-- `foldl_setPosition2d` with the loop bound given as any expression
equal to the molecule's atom count. -/
theorem foldl_setPosition2d_count (m : Molecule α) (f : Nat → V2 α)
    (n : Nat) (hn : n = m.atomCount) (h : 0 < n) :
    (List.range n).foldl (fun mm i => mm.setPosition2d i (f i)) m
      = { m with positions2d := (List.range n).map f } := by
  subst hn
  exact foldl_setPosition2d m f h

/-- Pure-list core of the bond-order loop: a step reads the current bond
at index `i` and replaces its order by `f i`. -/
def setOrdStep (f : Nat → Nat) (bl : List Bond) (i : Nat) : List Bond :=
  match bl.get? i with
  | some b => bl.set i ⟨b.atom1, b.atom2, f i⟩
  | none => bl

/-- The molecule-level bond-order loop is the pure-list loop on `bonds`. -/
theorem foldl_setBondOrder_bridge (l : List Nat) (f : Nat → Nat)
    (m : Molecule α) :
    l.foldl (fun mm i => mm.setBondOrder i (f i)) m
      = { m with bonds := l.foldl (setOrdStep f) m.bonds } := by
  induction l generalizing m with
  | nil => simp
  | cons a t ih =>
      rw [List.foldl_cons, List.foldl_cons]
      have hstep : m.setBondOrder a (f a)
          = { m with bonds := setOrdStep f m.bonds a } := by
        simp only [Molecule.setBondOrder, setOrdStep]
      rw [hstep, ih]

/-- Running the pure-list order loop over indices `k, …, k+j-1` of a bond
list of length `k+j` rewrites the orders of the tail past `k`. -/
theorem foldl_range'_setOrd (f : Nat → Nat) (j : Nat) :
    ∀ (k : Nat) (l : List Bond), l.length = k + j →
      (List.range' k j).foldl (setOrdStep f) l
        = l.take k ++ (l.drop k).mapIdx
            (fun i b => ⟨b.atom1, b.atom2, f (k + i)⟩) := by
  induction j with
  | zero =>
      intro k l h
      simp [List.take_of_length_le (by omega : l.length ≤ k),
        List.drop_of_length_le (by omega : l.length ≤ k)]
  | succ j ih =>
      intro k l h
      have hk : k < l.length := by omega
      rw [List.range'_succ, List.foldl_cons]
      have hstep : setOrdStep f l k = l.set k ⟨l[k].atom1, l[k].atom2, f k⟩ := by
        unfold setOrdStep
        rw [List.get?_eq_getElem?, List.getElem?_eq_getElem hk]
      rw [hstep, ih (k + 1) _
        (show (l.set k _).length = k + 1 + j by rw [List.length_set]; omega)]
      have h1 : (l.set k ⟨l[k].atom1, l[k].atom2, f k⟩).take (k + 1)
          = l.take k ++ [(⟨l[k].atom1, l[k].atom2, f k⟩ : Bond)] := by
        rw [List.take_succ, List.set_take,
          List.set_eq_of_length_le (by simp),
          List.getElem?_set_self hk]
        rfl
      have h2 : (l.set k ⟨l[k].atom1, l[k].atom2, f k⟩).drop (k + 1)
          = l.drop (k + 1) := by
        rw [List.drop_set]
        simp
      have h3 : l.drop k = l[k] :: l.drop (k + 1) :=
        List.drop_eq_getElem_cons hk
      rw [h1, h2, h3, List.mapIdx_cons, List.append_assoc]
      simp only [List.cons_append, List.nil_append, List.singleton_append]
      congr 2
      have : (fun (i : Nat) (b : Bond) =>
          (⟨b.atom1, b.atom2, f (k + (i + 1))⟩ : Bond))
          = fun (i : Nat) (b : Bond) =>
          (⟨b.atom1, b.atom2, f (k + 1 + i)⟩ : Bond) := by
        funext i b
        have harith : k + (i + 1) = k + 1 + i := by omega
        rw [harith]
      rw [this]

end FoldLemmas

/-! ## Which messages the sections after the identity check can append -/

section Messages

variable {α : Type} [LinearOrderedField α] [FloorRing α]

/-- Every message `CjsonFormat::read` can append after the identity check
has passed. -/
def lateMessages : List String :=
  ["Invalid unit cell specification: a, b, c, alpha, beta, gamma must be present and numeric.",
   "Error: no \"atom\" key found",
   "Error: \"atom\" is not of type object",
   "Error: no \"atoms.elements\" key found",
   "Error: \"atoms.elements\" is not of type object",
   "Error: no \"atoms.elements.number\" key found",
   "Error: \"atoms.elements.number\" is not of type array",
   "Error: number of elements != number of 3D coordinates.",
   "Error: number of elements != number of 2D coordinates.",
   "Cannot interpret fractional coordinates without unit cell.",
   "Error: number of elements != number of fractional coordinates.",
   "Error: no \"bonds.connections\" key found",
   "Warning, no bonding information found.",
   "Error: number of bonds != number of bond orders."]

theorem seqR_errors_subset (r : ReadResult α) (k : Molecule α → ReadResult α)
    (S : List String) (h1 : ∀ e ∈ r.errors, e ∈ S)
    (h2 : ∀ m, ∀ e ∈ (k m).errors, e ∈ S) :
    ∀ e ∈ (seqR r k).errors, e ∈ S := by
  unfold seqR
  split
  · intro e he
    simp only [List.mem_append] at he
    rcases he with he | he
    · exact h1 e he
    · exact h2 _ e he
  · exact h1

theorem readUnitCellStep_errors_late (d2r : α) (root : JValue α)
    (m : Molecule α) :
    ∀ e ∈ (readUnitCellStep d2r root m).errors, e ∈ lateMessages := by
  simp only [readUnitCellStep]
  repeat' split
  all_goals intro e he
  all_goals simp only [List.mem_singleton, List.not_mem_nil] at he
  all_goals first
    | exact absurd he not_false
    | (subst he; decide)

theorem read3dBlock_errors_late (v : JValue α) (n : Nat) (m : Molecule α) :
    ∀ e ∈ (read3dBlock v n m).errors, e ∈ lateMessages := by
  simp only [read3dBlock]
  repeat' split
  all_goals intro e he
  all_goals simp only [List.mem_singleton, List.not_mem_nil] at he
  all_goals first
    | exact absurd he not_false
    | (subst he; decide)

theorem read2dBlock_errors_late (v : JValue α) (n : Nat) (m : Molecule α) :
    ∀ e ∈ (read2dBlock v n m).errors, e ∈ lateMessages := by
  simp only [read2dBlock]
  repeat' split
  all_goals intro e he
  all_goals simp only [List.mem_singleton, List.not_mem_nil] at he
  all_goals first
    | exact absurd he not_false
    | (subst he; decide)

theorem readFracBlock_errors_late (ff : UnitCell α → V3 α → V3 α)
    (v : JValue α) (n : Nat) (m : Molecule α) :
    ∀ e ∈ (readFracBlock ff v n m).errors, e ∈ lateMessages := by
  simp only [readFracBlock]
  repeat' split
  all_goals intro e he
  all_goals simp only [List.mem_singleton, List.not_mem_nil] at he
  all_goals first
    | exact absurd he not_false
    | (subst he; decide)

theorem readCoordsStep_errors_late (ff : UnitCell α → V3 α → V3 α)
    (atoms : JValue α) (n : Nat) (m : Molecule α) :
    ∀ e ∈ (readCoordsStep ff atoms n m).errors, e ∈ lateMessages := by
  simp only [readCoordsStep]
  split
  · simp
  · apply seqR_errors_subset
    · apply read3dBlock_errors_late
    · intro m1
      apply seqR_errors_subset
      · apply read2dBlock_errors_late
      · intro m2
        apply readFracBlock_errors_late

theorem readAtomsStep_errors_late (ff : UnitCell α → V3 α → V3 α)
    (root : JValue α) (m : Molecule α) :
    ∀ e ∈ (readAtomsStep ff root m).errors, e ∈ lateMessages := by
  simp only [readAtomsStep]
  repeat' split
  all_goals first
    | apply readCoordsStep_errors_late
    | (intro e he
       simp only [List.mem_singleton, List.not_mem_nil] at he
       first
         | exact absurd he not_false
         | (subst he; decide))

theorem readOrderBlock_errors_late (ov : JValue α) (bondCount : Nat)
    (m : Molecule α) (warns : List String)
    (hw : ∀ e ∈ warns, e ∈ lateMessages) :
    ∀ e ∈ (readOrderBlock ov bondCount warns m).errors, e ∈ lateMessages := by
  simp only [readOrderBlock]
  repeat' split
  all_goals intro e he
  all_goals simp only [List.mem_append, List.mem_singleton] at he
  · rcases he with he | he
    · exact hw e he
    · subst he; decide
  · exact hw e he
  · exact hw e he

theorem readBondIdxBlock_warns (value : JValue α) (m : Molecule α) :
    (readBondIdxBlock value m).2.2 = [] ∨
      (readBondIdxBlock value m).2.2
        = ["Warning, no bonding information found."] := by
  simp only [readBondIdxBlock]
  split
  · exact Or.inl rfl
  · exact Or.inr rfl

theorem readBondsStep_errors_late (root : JValue α) (m : Molecule α) :
    ∀ e ∈ (readBondsStep root m).errors, e ∈ lateMessages := by
  simp only [readBondsStep]
  split
  · simp
  · split
    · intro e he
      simp only [List.mem_singleton] at he
      subst he; decide
    · rcases hp : readBondIdxBlock
          (((root.getMember "bonds").getMember "connections").getMember
            "index") m with ⟨m1, bc, w⟩
      apply readOrderBlock_errors_late
      have hw := readBondIdxBlock_warns
        (((root.getMember "bonds").getMember "connections").getMember
          "index") m
      rw [hp] at hw
      simp only at hw ⊢
      rcases hw with h | h
      · rw [h]; intro e he; exact absurd he (List.not_mem_nil e)
      · rw [h]
        intro e he
        simp only [List.mem_singleton] at he
        subst he; decide

theorem read_errors_late (d2r : α) (ff : UnitCell α → V3 α → V3 α)
    (root : JValue α) (mol : Molecule α)
    (h1 : root.isObjectT = true)
    (h2 : (root.getMember "chemical json").isEmpty = false) :
    ∀ e ∈ (read d2r ff root mol).errors, e ∈ lateMessages := by
  rw [read, if_neg (by simp [h1]), if_neg (by simp [h2])]
  apply seqR_errors_subset
  · apply readUnitCellStep_errors_late
  · intro m2
    apply seqR_errors_subset
    · apply readAtomsStep_errors_late
    · intro m3
      apply readBondsStep_errors_late

end Messages

section MoreHelpers

variable {α : Type} [LinearOrderedField α] [FloorRing α]

theorem lookupMember_of_not_mem (l : List (String × JValue α)) (k : String)
    (h : k ∉ l.map Prod.fst) : JValue.lookupMember l k = JValue.null := by
  induction l with
  | nil => rfl
  | cons p t ih =>
      simp only [List.map_cons, List.mem_cons] at h
      push_neg at h
      simp only [JValue.lookupMember, if_neg (Ne.symm h.1)]
      exact ih h.2

/-- `asInt` on a document integer recovers that integer: truncation
toward zero is the identity on integral values. -/
theorem trunc_intCast (z : ℤ) : trunc ((z : α)) = z := by
  unfold trunc
  split
  · exact Int.floor_intCast z
  · exact Int.ceil_intCast z

/-- A document integer entry: a JSON number holding the value of `z`. -/
def jIntNum (z : ℤ) : JValue α := JValue.num (Int.cast z)

/-- `asInt` applied to an entry of an integer array on the wire. -/
theorem asInt_map_intCast (idx : List ℤ) (i : Nat) (h : i < idx.length) :
    ((idx.map (jIntNum (α := α))).getD i (JValue.num 0)).asInt
      = idx.getD i 0 := by
  have h2 : i < (idx.map (jIntNum (α := α))).length := by
    rw [List.length_map]
    exact h
  rw [List.getD_eq_getElem _ _ h2, List.getElem_map,
    List.getD_eq_getElem _ _ h]
  exact trunc_intCast _

/-- The identity-check message is not one a later section can append. -/
theorem identity_not_late :
    "Error: no \"chemical json\" key found." ∉ lateMessages := by
  decide

end MoreHelpers

/-! ## Member lookup on encoded documents -/

section WriteLookup

variable {α : Type} [LinearOrderedField α] [FloorRing α]

/-- Whether an object value carries a member with the given key. -/
def objHasKey (v : JValue α) (k : String) : Bool :=
  match v with
  | JValue.obj members => members.any (fun p => p.1 = k)
  | _ => false

theorem lookupMember_append_of_ne (l1 l2 : List (String × JValue α))
    (k : String) (h : ∀ p ∈ l1, p.1 ≠ k) :
    JValue.lookupMember (l1 ++ l2) k = JValue.lookupMember l2 k := by
  induction l1 with
  | nil => rfl
  | cons p t ih =>
      obtain ⟨k', v⟩ := p
      rw [List.cons_append]
      show JValue.lookupMember ((k', v) :: (t ++ l2)) k
        = JValue.lookupMember l2 k
      rw [JValue.lookupMember,
        if_neg (h (k', v) (List.mem_cons_self _ _))]
      exact ih (fun q hq => h q (List.mem_cons_of_mem _ hq))

theorem nameMember_keys (m : Molecule α) :
    ∀ p ∈ nameMember m, p.1 = "name" := by
  unfold nameMember
  rcases m.data "name" with _ | s <;> simp

theorem inchiMember_keys (m : Molecule α) :
    ∀ p ∈ inchiMember m, p.1 = "inchi" := by
  unfold inchiMember
  rcases m.data "inchi" with _ | s <;> simp

theorem unitCellMember_keys (r2d : α) (m : Molecule α) :
    ∀ p ∈ unitCellMember r2d m, p.1 = "unit cell" := by
  unfold unitCellMember
  rcases m.unitCell with _ | uc <;> simp

theorem basisSetMember_keys (m : Molecule α) :
    ∀ p ∈ basisSetMember m, p.1 = "basisSet" := by
  unfold basisSetMember
  rcases m.basisSet with _ | bd
  · simp
  · dsimp only
    split <;> simp

theorem atomsMember_keys (tf : UnitCell α → V3 α → V3 α) (m : Molecule α) :
    ∀ p ∈ atomsMember tf m, p.1 = "atoms" := by
  unfold atomsMember
  split <;> simp

theorem bondsMember_keys (m : Molecule α) :
    ∀ p ∈ bondsMember m, p.1 = "bonds" := by
  unfold bondsMember
  split <;> simp

theorem write_members (r2d : α) (tf : UnitCell α → V3 α → V3 α)
    (m : Molecule α) :
    write r2d tf m
      = JValue.obj (("chemical json", JValue.num 0)
          :: (nameMember m ++ (inchiMember m ++ (unitCellMember r2d m
              ++ (basisSetMember m ++ (atomsMember tf m
                  ++ bondsMember m)))))) := by
  unfold write
  simp only [List.append_assoc, List.singleton_append, List.cons_append,
    List.nil_append]

theorem write_getMember_cj (r2d : α) (tf : UnitCell α → V3 α → V3 α)
    (m : Molecule α) :
    (write r2d tf m).getMember "chemical json" = JValue.num 0 := by
  rw [write_members, JValue.getMember, JValue.lookupMember]
  simp

theorem write_getMember_name (r2d : α) (tf : UnitCell α → V3 α → V3 α)
    (m : Molecule α) :
    (write r2d tf m).getMember "name"
      = (match m.data "name" with
         | some s => JValue.str s
         | none => JValue.null) := by
  rw [write_members, JValue.getMember, JValue.lookupMember,
    if_neg (by decide)]
  rcases hname : m.data "name" with _ | s
  · rw [show nameMember m = [] by simp [nameMember, hname], List.nil_append]
    rw [lookupMember_append_of_ne _ _ _
      (fun p hp => by rw [inchiMember_keys m p hp]; decide)]
    rw [lookupMember_append_of_ne _ _ _
      (fun p hp => by rw [unitCellMember_keys r2d m p hp]; decide)]
    rw [lookupMember_append_of_ne _ _ _
      (fun p hp => by rw [basisSetMember_keys m p hp]; decide)]
    rw [lookupMember_append_of_ne _ _ _
      (fun p hp => by rw [atomsMember_keys tf m p hp]; decide)]
    rcases hb : m.bonds.length with _ | n <;>
      simp [bondsMember, hb, JValue.lookupMember]
  · rw [show nameMember m = [("name", JValue.str s)] by
      simp [nameMember, hname]]
    simp [JValue.lookupMember]

theorem write_getMember_inchi (r2d : α) (tf : UnitCell α → V3 α → V3 α)
    (m : Molecule α) :
    (write r2d tf m).getMember "inchi"
      = (match m.data "inchi" with
         | some s => JValue.str s
         | none => JValue.null) := by
  rw [write_members, JValue.getMember, JValue.lookupMember,
    if_neg (by decide)]
  rw [lookupMember_append_of_ne _ _ _
    (fun p hp => by rw [nameMember_keys m p hp]; decide)]
  rcases hinchi : m.data "inchi" with _ | s
  · rw [show inchiMember m = [] by simp [inchiMember, hinchi],
      List.nil_append]
    rw [lookupMember_append_of_ne _ _ _
      (fun p hp => by rw [unitCellMember_keys r2d m p hp]; decide)]
    rw [lookupMember_append_of_ne _ _ _
      (fun p hp => by rw [basisSetMember_keys m p hp]; decide)]
    rw [lookupMember_append_of_ne _ _ _
      (fun p hp => by rw [atomsMember_keys tf m p hp]; decide)]
    rcases hb : m.bonds.length with _ | n <;>
      simp [bondsMember, hb, JValue.lookupMember]
  · rw [show inchiMember m = [("inchi", JValue.str s)] by
      simp [inchiMember, hinchi]]
    simp [JValue.lookupMember]

theorem write_getMember_unitcell (r2d : α) (tf : UnitCell α → V3 α → V3 α)
    (m : Molecule α) :
    (write r2d tf m).getMember "unit cell"
      = (match m.unitCell with
         | some uc =>
             JValue.obj
               [("a", JValue.num uc.a),
                ("b", JValue.num uc.b),
                ("c", JValue.num uc.c),
                ("alpha", JValue.num (uc.alpha * r2d)),
                ("beta", JValue.num (uc.beta * r2d)),
                ("gamma", JValue.num (uc.gamma * r2d))]
         | none => JValue.null) := by
  rw [write_members, JValue.getMember, JValue.lookupMember,
    if_neg (by decide)]
  rw [lookupMember_append_of_ne _ _ _
    (fun p hp => by rw [nameMember_keys m p hp]; decide)]
  rw [lookupMember_append_of_ne _ _ _
    (fun p hp => by rw [inchiMember_keys m p hp]; decide)]
  rcases huc : m.unitCell with _ | uc
  · rw [show unitCellMember r2d m = [] by simp [unitCellMember, huc],
      List.nil_append]
    rw [lookupMember_append_of_ne _ _ _
      (fun p hp => by rw [basisSetMember_keys m p hp]; decide)]
    rw [lookupMember_append_of_ne _ _ _
      (fun p hp => by rw [atomsMember_keys tf m p hp]; decide)]
    rcases hb : m.bonds.length with _ | n <;>
      simp [bondsMember, hb, JValue.lookupMember]
  · rw [show unitCellMember r2d m = [("unit cell", JValue.obj
        [("a", JValue.num uc.a),
         ("b", JValue.num uc.b),
         ("c", JValue.num uc.c),
         ("alpha", JValue.num (uc.alpha * r2d)),
         ("beta", JValue.num (uc.beta * r2d)),
         ("gamma", JValue.num (uc.gamma * r2d))])] by
      simp [unitCellMember, huc]]
    simp [JValue.lookupMember]

theorem write_getMember_atoms (r2d : α) (tf : UnitCell α → V3 α → V3 α)
    (m : Molecule α) :
    (write r2d tf m).getMember "atoms"
      = (if m.atomCount ≠ 0 then
           JValue.obj
             ([("elements", JValue.obj
                 [("number", JValue.arr (m.atomicNumbers.map jNatNum))])]
              ++ writeCoords tf m)
         else JValue.null) := by
  rw [write_members, JValue.getMember, JValue.lookupMember,
    if_neg (by decide)]
  rw [lookupMember_append_of_ne _ _ _
    (fun p hp => by rw [nameMember_keys m p hp]; decide)]
  rw [lookupMember_append_of_ne _ _ _
    (fun p hp => by rw [inchiMember_keys m p hp]; decide)]
  rw [lookupMember_append_of_ne _ _ _
    (fun p hp => by rw [unitCellMember_keys r2d m p hp]; decide)]
  rw [lookupMember_append_of_ne _ _ _
    (fun p hp => by rw [basisSetMember_keys m p hp]; decide)]
  unfold atomsMember
  split
  · simp [JValue.lookupMember]
  · rw [List.nil_append]
    rcases hb : m.bonds.length with _ | n <;>
      simp [bondsMember, hb, JValue.lookupMember]

theorem write_getMember_bonds (r2d : α) (tf : UnitCell α → V3 α → V3 α)
    (m : Molecule α) :
    (write r2d tf m).getMember "bonds"
      = (if m.bonds.length ≠ 0 then
           JValue.obj
             [("connections", JValue.obj
                [("index", JValue.arr (m.bonds.flatMap (fun b =>
                   [jNatNum (toJsonUInt b.atom1),
                    jNatNum (toJsonUInt b.atom2)])))]),
              ("order", JValue.arr (m.bonds.map (fun b => jNatNum b.order)))]
         else JValue.null) := by
  rw [write_members, JValue.getMember, JValue.lookupMember,
    if_neg (by decide)]
  rw [lookupMember_append_of_ne _ _ _
    (fun p hp => by rw [nameMember_keys m p hp]; decide)]
  rw [lookupMember_append_of_ne _ _ _
    (fun p hp => by rw [inchiMember_keys m p hp]; decide)]
  rw [lookupMember_append_of_ne _ _ _
    (fun p hp => by rw [unitCellMember_keys r2d m p hp]; decide)]
  rw [lookupMember_append_of_ne _ _ _
    (fun p hp => by rw [basisSetMember_keys m p hp]; decide)]
  rw [lookupMember_append_of_ne _ _ _
    (fun p hp => by rw [atomsMember_keys tf m p hp]; decide)]
  unfold bondsMember
  split
  · simp [JValue.lookupMember]
  · rfl

theorem write_isObjectT (r2d : α) (tf : UnitCell α → V3 α → V3 α)
    (m : Molecule α) : (write r2d tf m).isObjectT = true := rfl

end WriteLookup

/-! ## Round-trip infrastructure -/

section RoundTrip

variable {α : Type} [LinearOrderedField α] [FloorRing α]

theorem asInt_jNatNum (n : Nat) :
    (jNatNum (α := α) n).asInt = (n : ℤ) := by
  show trunc ((n : α)) = (n : ℤ)
  unfold trunc
  rw [if_pos (by positivity)]
  exact_mod_cast Int.floor_natCast n

theorem toUChar_ofNat (n : Nat) (h : n < 256) : toUChar ((n : ℤ)) = n := by
  unfold toUChar
  rw [Int.emod_eq_of_lt (by positivity) (by exact_mod_cast h)]
  simp

theorem toIndex_ofNat (n : Nat) (h : n < 2 ^ 64) :
    toIndex ((n : ℤ)) = n := by
  unfold toIndex
  rw [Int.emod_eq_of_lt (by positivity) (by exact_mod_cast h)]
  simp

theorem toJsonUInt_small (n : Nat) (h : n < 2 ^ 32) : toJsonUInt n = n :=
  Nat.mod_eq_of_lt h

theorem toUChar_lt (z : ℤ) : toUChar z < 256 := by
  unfold toUChar
  have h1 : z % 256 < 256 := Int.emod_lt_of_pos z (by norm_num)
  omega

/-- A projection unchanged by every fold step is unchanged by the fold. -/
theorem foldl_proj {β γ : Type} (p : Molecule α → γ) (g : Molecule α → β → Molecule α)
    (h : ∀ mm b, p (g mm b) = p mm) :
    ∀ (l : List β) (m : Molecule α), p (l.foldl g m) = p m := by
  intro l
  induction l with
  | nil => intro m; rfl
  | cons a t ih => intro m; rw [List.foldl_cons, ih, h]

theorem flat3_length (l : List (V3 α)) : (flat3 l).length = 3 * l.length := by
  induction l with
  | nil => rfl
  | cons v t ih => simp [flat3] at ih ⊢; omega

theorem flat2_length (l : List (V2 α)) : (flat2 l).length = 2 * l.length := by
  induction l with
  | nil => rfl
  | cons v t ih => simp [flat2] at ih ⊢; omega

theorem flat3_getD (l : List (V3 α)) (d : JValue α) :
    ∀ i, i < l.length →
      (flat3 l).getD (3 * i + 0) d
          = JValue.num (l.getD i (⟨0, 0, 0⟩ : V3 α)).x
      ∧ (flat3 l).getD (3 * i + 1) d
          = JValue.num (l.getD i (⟨0, 0, 0⟩ : V3 α)).y
      ∧ (flat3 l).getD (3 * i + 2) d
          = JValue.num (l.getD i (⟨0, 0, 0⟩ : V3 α)).z := by
  induction l with
  | nil => intro i hi; simp at hi
  | cons v t ih =>
      intro i hi
      have hflat : flat3 (v :: t)
          = JValue.num v.x :: JValue.num v.y :: JValue.num v.z
            :: flat3 t := by
        simp [flat3]
      cases i with
      | zero => rw [hflat]; simp [List.getD]
      | succ j =>
          have hj : j < t.length := by simpa using hi
          have h3 : ∀ k, 3 * (j + 1) + k = 3 * j + k + 1 + 1 + 1 := by
            intro k; omega
          rw [h3 0, h3 1, h3 2, hflat]
          simp only [List.getD_cons_succ, List.getD_cons_zero]
          exact ih j hj

theorem flat2_getD (l : List (V2 α)) (d : JValue α) :
    ∀ i, i < l.length →
      (flat2 l).getD (2 * i + 0) d
          = JValue.num (l.getD i (⟨0, 0⟩ : V2 α)).x
      ∧ (flat2 l).getD (2 * i + 1) d
          = JValue.num (l.getD i (⟨0, 0⟩ : V2 α)).y := by
  induction l with
  | nil => intro i hi; simp at hi
  | cons v t ih =>
      intro i hi
      have hflat : flat2 (v :: t)
          = JValue.num v.x :: JValue.num v.y :: flat2 t := by
        simp [flat2]
      cases i with
      | zero => rw [hflat]; simp [List.getD]
      | succ j =>
          have hj : j < t.length := by simpa using hi
          have h2 : ∀ k, 2 * (j + 1) + k = 2 * j + k + 1 + 1 := by
            intro k; omega
          rw [h2 0, h2 1, hflat]
          simp only [List.getD_cons_succ, List.getD_cons_zero]
          exact ih j hj

/-- The flattened bond-index array of the encoder. -/
theorem flatPairs_length (l : List Bond) :
    (l.flatMap (fun b =>
      [jNatNum (α := α) (toJsonUInt b.atom1),
       jNatNum (toJsonUInt b.atom2)])).length = 2 * l.length := by
  induction l with
  | nil => rfl
  | cons b t ih => simp [List.flatMap_cons] at ih ⊢; omega

theorem flatPairs_getD (l : List Bond) (d : JValue α) :
    ∀ i, i < l.length →
      (l.flatMap (fun b =>
          [jNatNum (α := α) (toJsonUInt b.atom1),
           jNatNum (toJsonUInt b.atom2)])).getD (2 * i + 0) d
          = jNatNum (toJsonUInt (l.getD i ⟨0, 0, 0⟩).atom1)
      ∧ (l.flatMap (fun b =>
          [jNatNum (α := α) (toJsonUInt b.atom1),
           jNatNum (toJsonUInt b.atom2)])).getD (2 * i + 1) d
          = jNatNum (toJsonUInt (l.getD i ⟨0, 0, 0⟩).atom2) := by
  induction l with
  | nil => intro i hi; simp at hi
  | cons b t ih =>
      intro i hi
      rw [List.flatMap_cons]
      cases i with
      | zero => simp [List.getD]
      | succ j =>
          have hj : j < t.length := by simpa using hi
          have h2 : ∀ k, 2 * (j + 1) + k = 2 * j + k + 1 + 1 := by
            intro k; omega
          rw [h2 0, h2 1]
          simp only [List.cons_append, List.nil_append,
            List.getD_cons_succ, List.getD_cons_zero]
          exact ih j hj

/-- Reassembling a list from its entries. -/
theorem map_range_eq {β : Type} (l : List β) (f : Nat → β)
    (h : ∀ i (hi : i < l.length), f i = l[i]) :
    (List.range l.length).map f = l := by
  apply List.ext_getElem
  · simp
  · intro n h1 h2
    simp only [List.getElem_map, List.getElem_range]
    exact h n h2

end RoundTrip

section RoundTrip2

variable {α : Type} [LinearOrderedField α] [FloorRing α]

/-- The shape every molecule produced by a successful decode into a fresh
molecule has: at least one atom, position arrays either untouched or
fully populated, and 8-bit bond orders. -/
def Canonical (M : Molecule α) : Prop :=
  1 ≤ M.atomCount
  ∧ (M.positions3d.length = 0 ∨ M.positions3d.length = M.atomCount)
  ∧ (M.positions2d.length = 0 ∨ M.positions2d.length = M.atomCount)
  ∧ (∀ b ∈ M.bonds, b.order < 256)

/-- `foldl_setPosition3d_count` stated in the exact shape of the decoder's
3D loop. -/
theorem foldl_setPosition3d_jget (v : JValue α) (m : Molecule α) (n : Nat)
    (hn : n = m.atomCount) (h : 0 < n) :
    (List.range n).foldl (fun mm i => mm.setPosition3d i
      ⟨(v.jGet (3 * i + 0) (JValue.num 0)).asDouble,
       (v.jGet (3 * i + 1) (JValue.num 0)).asDouble,
       (v.jGet (3 * i + 2) (JValue.num 0)).asDouble⟩) m
    = { m with positions3d := (List.range n).map (fun i =>
        (⟨(v.jGet (3 * i + 0) (JValue.num 0)).asDouble,
          (v.jGet (3 * i + 1) (JValue.num 0)).asDouble,
          (v.jGet (3 * i + 2) (JValue.num 0)).asDouble⟩ : V3 α)) } :=
  foldl_setPosition3d_count m _ n hn h

/-- `foldl_setPosition2d_count` stated in the exact shape of the decoder's
2D loop. -/
theorem foldl_setPosition2d_jget (v : JValue α) (m : Molecule α) (n : Nat)
    (hn : n = m.atomCount) (h : 0 < n) :
    (List.range n).foldl (fun mm i => mm.setPosition2d i
      ⟨(v.jGet (2 * i + 0) (JValue.num 0)).asDouble,
       (v.jGet (2 * i + 1) (JValue.num 0)).asDouble⟩) m
    = { m with positions2d := (List.range n).map (fun i =>
        (⟨(v.jGet (2 * i + 0) (JValue.num 0)).asDouble,
          (v.jGet (2 * i + 1) (JValue.num 0)).asDouble⟩ : V2 α)) } :=
  foldl_setPosition2d_count m _ n hn h

theorem seqR_ok_iff (r : ReadResult α) (k : Molecule α → ReadResult α) :
    (seqR r k).ok = true ↔ r.ok = true ∧ (k r.mol).ok = true := by
  unfold seqR
  split
  · simp [*]
  · simp only [Bool.not_eq_true] at *
    constructor
    · intro h; simp_all
    · intro h; simp_all

theorem seqR_mol_of_ok (r : ReadResult α) (k : Molecule α → ReadResult α)
    (h : r.ok = true) : (seqR r k).mol = (k r.mol).mol := by
  unfold seqR
  rw [if_pos h]

theorem readNameInchi_core (root : JValue α) (m : Molecule α) :
    (readNameInchi root m).atomicNumbers = m.atomicNumbers
    ∧ (readNameInchi root m).positions3d = m.positions3d
    ∧ (readNameInchi root m).positions2d = m.positions2d
    ∧ (readNameInchi root m).bonds = m.bonds
    ∧ (readNameInchi root m).unitCell = m.unitCell := by
  simp only [readNameInchi]
  split_ifs <;> simp [Molecule.setData]

theorem readUnitCellStep_core (d2r : α) (root : JValue α) (m : Molecule α) :
    (readUnitCellStep d2r root m).mol.atomicNumbers = m.atomicNumbers
    ∧ (readUnitCellStep d2r root m).mol.positions3d = m.positions3d
    ∧ (readUnitCellStep d2r root m).mol.positions2d = m.positions2d
    ∧ (readUnitCellStep d2r root m).mol.bonds = m.bonds
    ∧ (readUnitCellStep d2r root m).mol.dataMap = m.dataMap := by
  simp only [readUnitCellStep]
  split_ifs <;> simp [Molecule.setUnitCell]

theorem read3dBlock_core (v : JValue α) (n : Nat) (m : Molecule α) :
    (read3dBlock v n m).mol.atomicNumbers = m.atomicNumbers
    ∧ (read3dBlock v n m).mol.positions2d = m.positions2d
    ∧ (read3dBlock v n m).mol.bonds = m.bonds
    ∧ (read3dBlock v n m).mol.unitCell = m.unitCell
    ∧ (read3dBlock v n m).mol.dataMap = m.dataMap := by
  simp only [read3dBlock]
  split_ifs <;>
    refine ⟨?_, ?_, ?_, ?_, ?_⟩ <;>
    first
      | rfl
      | exact foldl_proj _ _ (fun mm b => by simp [Molecule.setPosition3d]) _ _

theorem read3dBlock_pos3d (v : JValue α) (n : Nat) (m : Molecule α)
    (hn : n = m.atomCount) (h1 : 1 ≤ n)
    (hok : (read3dBlock v n m).ok = true) :
    (read3dBlock v n m).mol.positions3d = m.positions3d
    ∨ (read3dBlock v n m).mol.positions3d.length = m.atomCount := by
  by_cases hArr : v.isArrayT = true
  · by_cases hCard : v.jSize ≠ 0 ∧ n ≠ v.jSize / 3
    · simp only [read3dBlock] at hok
      rw [if_pos hArr, if_pos hCard] at hok
      simp at hok
    · right
      simp only [read3dBlock]
      rw [if_pos hArr, if_neg hCard]
      show (List.foldl (fun mm i => mm.setPosition3d i
        (⟨(v.jGet (3 * i + 0) (JValue.num 0)).asDouble,
          (v.jGet (3 * i + 1) (JValue.num 0)).asDouble,
          (v.jGet (3 * i + 2) (JValue.num 0)).asDouble⟩ : V3 α))
        m (List.range n)).positions3d.length = m.atomCount
      rw [foldl_setPosition3d_jget v m n hn (by omega)]
      simp [hn]
  · left
    simp only [read3dBlock]
    rw [if_neg hArr]

theorem read2dBlock_core (v : JValue α) (n : Nat) (m : Molecule α) :
    (read2dBlock v n m).mol.atomicNumbers = m.atomicNumbers
    ∧ (read2dBlock v n m).mol.positions3d = m.positions3d
    ∧ (read2dBlock v n m).mol.bonds = m.bonds
    ∧ (read2dBlock v n m).mol.unitCell = m.unitCell
    ∧ (read2dBlock v n m).mol.dataMap = m.dataMap := by
  simp only [read2dBlock]
  split_ifs <;>
    refine ⟨?_, ?_, ?_, ?_, ?_⟩ <;>
    first
      | rfl
      | exact foldl_proj _ _ (fun mm b => by simp [Molecule.setPosition2d]) _ _

theorem read2dBlock_pos2d (v : JValue α) (n : Nat) (m : Molecule α)
    (hn : n = m.atomCount) (h1 : 1 ≤ n)
    (hok : (read2dBlock v n m).ok = true) :
    (read2dBlock v n m).mol.positions2d = m.positions2d
    ∨ (read2dBlock v n m).mol.positions2d.length = m.atomCount := by
  by_cases hArr : v.isArrayT = true
  · by_cases hCard : v.jSize ≠ 0 ∧ n ≠ v.jSize / 2
    · simp only [read2dBlock] at hok
      rw [if_pos hArr, if_pos hCard] at hok
      simp at hok
    · right
      simp only [read2dBlock]
      rw [if_pos hArr, if_neg hCard]
      show (List.foldl (fun mm i => mm.setPosition2d i
        (⟨(v.jGet (2 * i + 0) (JValue.num 0)).asDouble,
          (v.jGet (2 * i + 1) (JValue.num 0)).asDouble⟩ : V2 α))
        m (List.range n)).positions2d.length = m.atomCount
      rw [foldl_setPosition2d_jget v m n hn (by omega)]
      simp [hn]
  · left
    simp only [read2dBlock]
    rw [if_neg hArr]

theorem readFracBlock_core (ff : UnitCell α → V3 α → V3 α) (v : JValue α)
    (n : Nat) (m : Molecule α) :
    (readFracBlock ff v n m).mol.atomicNumbers = m.atomicNumbers
    ∧ (readFracBlock ff v n m).mol.positions2d = m.positions2d
    ∧ (readFracBlock ff v n m).mol.bonds = m.bonds
    ∧ (readFracBlock ff v n m).mol.unitCell = m.unitCell
    ∧ (readFracBlock ff v n m).mol.dataMap = m.dataMap := by
  simp only [readFracBlock, setFractionalCoordinates]
  split_ifs <;> first
    | exact ⟨rfl, rfl, rfl, rfl, rfl⟩
    | (rcases hc : m.unitCell with _ | uc <;> simp [hc])

theorem readFracBlock_pos3d (ff : UnitCell α → V3 α → V3 α) (v : JValue α)
    (n : Nat) (m : Molecule α) (hn : n = m.atomCount) :
    (readFracBlock ff v n m).mol.positions3d = m.positions3d
    ∨ (readFracBlock ff v n m).mol.positions3d.length = m.atomCount := by
  simp only [readFracBlock, setFractionalCoordinates]
  split_ifs <;> first
    | (left; rfl)
    | (rcases hc : m.unitCell with _ | uc
       · left; simp [hc]
       · right; simp [hc, hn])

end RoundTrip2

section RoundTrip3

variable {α : Type} [LinearOrderedField α] [FloorRing α]

theorem foldl_setOrdStep_orders (f : Nat → Nat) (hf : ∀ i, f i < 256) :
    ∀ (l : List Nat) (bl : List Bond), (∀ b ∈ bl, b.order < 256) →
      ∀ b ∈ l.foldl (setOrdStep f) bl, b.order < 256 := by
  intro l
  induction l with
  | nil => intro bl h; exact h
  | cons a t ih =>
      intro bl h
      rw [List.foldl_cons]
      apply ih
      intro b hb
      unfold setOrdStep at hb
      rcases hg : bl.get? a with _ | b0
      · rw [hg] at hb; exact h b hb
      · rw [hg] at hb
        rcases List.mem_or_eq_of_mem_set hb with h' | h'
        · exact h b h'
        · rw [h']; exact hf a

theorem readCoordsStep_canonical (ff : UnitCell α → V3 α → V3 α)
    (atoms : JValue α) (n : Nat) (m : Molecule α)
    (hn : n = m.atomCount) (h1 : 1 ≤ n)
    (hok : (readCoordsStep ff atoms n m).ok = true) :
    (readCoordsStep ff atoms n m).mol.atomicNumbers = m.atomicNumbers
    ∧ ((readCoordsStep ff atoms n m).mol.positions3d = m.positions3d
        ∨ (readCoordsStep ff atoms n m).mol.positions3d.length
            = m.atomCount)
    ∧ ((readCoordsStep ff atoms n m).mol.positions2d = m.positions2d
        ∨ (readCoordsStep ff atoms n m).mol.positions2d.length
            = m.atomCount)
    ∧ (readCoordsStep ff atoms n m).mol.bonds = m.bonds
    ∧ (readCoordsStep ff atoms n m).mol.unitCell = m.unitCell
    ∧ (readCoordsStep ff atoms n m).mol.dataMap = m.dataMap := by
  simp only [readCoordsStep] at hok ⊢
  by_cases hco : (atoms.getMember "coords").isEmpty = true
  · rw [if_pos hco] at hok ⊢
    exact ⟨rfl, Or.inl rfl, Or.inl rfl, rfl, rfl, rfl⟩
  · rw [if_neg hco] at hok ⊢
    obtain ⟨h3ok, hrest⟩ := (seqR_ok_iff _ _).mp hok
    obtain ⟨h2ok, hfok⟩ := (seqR_ok_iff _ _).mp hrest
    rw [seqR_mol_of_ok _ _ h3ok, seqR_mol_of_ok _ _ h2ok]
    obtain ⟨c3a, c3b, c3c, c3d, c3e⟩ :=
      read3dBlock_core ((atoms.getMember "coords").getMember "3d") n m
    have h3pos := read3dBlock_pos3d
      ((atoms.getMember "coords").getMember "3d") n m hn h1 h3ok
    set m1 := (read3dBlock ((atoms.getMember "coords").getMember "3d")
      n m).mol with hm1
    have hac1 : m1.atomCount = m.atomCount := by
      unfold Molecule.atomCount
      rw [c3a]
    obtain ⟨c2a, c2b, c2c, c2d, c2e⟩ :=
      read2dBlock_core ((atoms.getMember "coords").getMember "2d") n m1
    have h2pos := read2dBlock_pos2d
      ((atoms.getMember "coords").getMember "2d") n m1 (hn.trans hac1.symm)
      h1 h2ok
    set m2 := (read2dBlock ((atoms.getMember "coords").getMember "2d")
      n m1).mol with hm2
    have hac2 : m2.atomCount = m.atomCount := by
      unfold Molecule.atomCount
      rw [c2a]
      exact hac1
    obtain ⟨cfa, cfb, cfc, cfd, cfe⟩ :=
      readFracBlock_core ff
        ((atoms.getMember "coords").getMember "3d fractional") n m2
    have hfpos := readFracBlock_pos3d ff
      ((atoms.getMember "coords").getMember "3d fractional") n m2
      (hn.trans hac2.symm)
    refine ⟨?_, ?_, ?_, ?_, ?_, ?_⟩
    · rw [cfa, c2a, c3a]
    · rcases hfpos with hf | hf
      · rw [hf, c2b]
        rcases h3pos with h3 | h3
        · exact Or.inl h3
        · exact Or.inr h3
      · exact Or.inr (hf.trans hac2)
    · rw [cfb]
      rcases h2pos with h2 | h2
      · rw [h2, c3b]
        exact Or.inl rfl
      · exact Or.inr (h2.trans hac1)
    · rw [cfc, c2c, c3c]
    · rw [cfd, c2d, c3d]
    · rw [cfe, c2e, c3e]

theorem jSize_pos_of (v : JValue α) (he : v.isEmpty = false)
    (ha : v.isArrayT = true) : 1 ≤ v.jSize := by
  cases v <;> simp_all [JValue.isEmpty, JValue.isArrayT, JValue.jSize]
  rename_i l
  cases l with
  | nil => simp at he
  | cons a t => simp

theorem readAtomsStep_canonical (ff : UnitCell α → V3 α → V3 α)
    (root : JValue α) (m : Molecule α)
    (hA : m.atomCount = 0) (h3 : m.positions3d = [])
    (h2 : m.positions2d = [])
    (hok : (readAtomsStep ff root m).ok = true) :
    1 ≤ (readAtomsStep ff root m).mol.atomCount
    ∧ ((readAtomsStep ff root m).mol.positions3d.length = 0
        ∨ (readAtomsStep ff root m).mol.positions3d.length
            = (readAtomsStep ff root m).mol.atomCount)
    ∧ ((readAtomsStep ff root m).mol.positions2d.length = 0
        ∨ (readAtomsStep ff root m).mol.positions2d.length
            = (readAtomsStep ff root m).mol.atomCount)
    ∧ (readAtomsStep ff root m).mol.bonds = m.bonds
    ∧ (readAtomsStep ff root m).mol.unitCell = m.unitCell
    ∧ (readAtomsStep ff root m).mol.dataMap = m.dataMap := by
  simp only [readAtomsStep] at hok ⊢
  split_ifs at hok ⊢ with g1 g2 g3 g4 g5 g6
  all_goals try (exfalso; simp at hok)
  -- the single surviving goal: elements read, then coordinates
  set atoms := root.getMember "atoms" with hatoms
  set nums := (atoms.getMember "elements").getMember "number" with hnums
  set n := nums.jSize with hsz
  have hn1 : 1 ≤ n := jSize_pos_of nums (by simpa using g5) g6
  set m1 := (List.range n).foldl (fun mm i =>
    mm.addAtom (toUChar ((nums.jGet i (JValue.num 0)).asInt))) m with hm1
  have hm1eq : m1 = { m with
      atomicNumbers := m.atomicNumbers
        ++ (List.range n).map (fun i =>
          toUChar ((nums.jGet i (JValue.num 0)).asInt)) } :=
    foldl_addAtom _ _ _
  have hac : m1.atomCount = n := by
    rw [hm1eq]
    unfold Molecule.atomCount at hA ⊢
    simp [hA]
  have h3' : m1.positions3d = [] := by rw [hm1eq]; exact h3
  have h2' : m1.positions2d = [] := by rw [hm1eq]; exact h2
  obtain ⟨ca, cp3, cp2, cb, cu, cd⟩ :=
    readCoordsStep_canonical ff atoms n m1 hac.symm hn1 hok
  have hacr : (readCoordsStep ff atoms n m1).mol.atomCount
      = m1.atomCount := by
    unfold Molecule.atomCount
    rw [ca]
  refine ⟨?_, ?_, ?_, ?_, ?_, ?_⟩
  · rw [hacr, hac]; exact hn1
  · rcases cp3 with h | h
    · left
      rw [h, h3']
      rfl
    · right
      rw [h, hacr, hac]
  · rcases cp2 with h | h
    · left
      rw [h, h2']
      rfl
    · right
      rw [h, hacr, hac]
  · rw [cb, hm1eq]
  · rw [cu, hm1eq]
  · rw [cd, hm1eq]

theorem readBondIdxBlock_core (v : JValue α) (m : Molecule α)
    (hb : ∀ b ∈ m.bonds, b.order < 256) :
    (readBondIdxBlock v m).1.atomicNumbers = m.atomicNumbers
    ∧ (readBondIdxBlock v m).1.positions3d = m.positions3d
    ∧ (readBondIdxBlock v m).1.positions2d = m.positions2d
    ∧ (readBondIdxBlock v m).1.unitCell = m.unitCell
    ∧ (readBondIdxBlock v m).1.dataMap = m.dataMap
    ∧ ∀ b ∈ (readBondIdxBlock v m).1.bonds, b.order < 256 := by
  simp only [readBondIdxBlock]
  split_ifs with h
  · rw [foldl_addBond]
    refine ⟨rfl, rfl, rfl, rfl, rfl, ?_⟩
    intro b hbm
    rcases List.mem_append.mp hbm with h' | h'
    · exact hb b h'
    · obtain ⟨i, _, rfl⟩ := List.mem_map.mp h'
      show (1 : Nat) < 256
      norm_num
  · exact ⟨rfl, rfl, rfl, rfl, rfl, hb⟩

theorem readOrderBlock_canonical (ov : JValue α) (bc : Nat)
    (w : List String) (m : Molecule α)
    (hb : ∀ b ∈ m.bonds, b.order < 256)
    (hok : (readOrderBlock ov bc w m).ok = true) :
    (readOrderBlock ov bc w m).mol.atomicNumbers = m.atomicNumbers
    ∧ (readOrderBlock ov bc w m).mol.positions3d = m.positions3d
    ∧ (readOrderBlock ov bc w m).mol.positions2d = m.positions2d
    ∧ (readOrderBlock ov bc w m).mol.unitCell = m.unitCell
    ∧ (readOrderBlock ov bc w m).mol.dataMap = m.dataMap
    ∧ ∀ b ∈ (readOrderBlock ov bc w m).mol.bonds, b.order < 256 := by
  simp only [readOrderBlock] at hok ⊢
  split_ifs at hok ⊢ with g1 g2
  all_goals try simp at hok
  all_goals try exact ⟨rfl, rfl, rfl, rfl, rfl, hb⟩
  all_goals rw [foldl_setBondOrder_bridge]
  all_goals exact ⟨rfl, rfl, rfl, rfl, rfl,
    foldl_setOrdStep_orders _ (fun i => toUChar_lt _) _ _ hb⟩

theorem readBondsStep_eq (root : JValue α) (m : Molecule α)
    (hbe : (root.getMember "bonds").isEmpty = false)
    (hce : ((root.getMember "bonds").getMember "connections").isEmpty
      = false) :
    readBondsStep root m
      = readOrderBlock ((root.getMember "bonds").getMember "order")
          (readBondIdxBlock (((root.getMember "bonds").getMember
            "connections").getMember "index") m).2.1
          (readBondIdxBlock (((root.getMember "bonds").getMember
            "connections").getMember "index") m).2.2
          (readBondIdxBlock (((root.getMember "bonds").getMember
            "connections").getMember "index") m).1 := by
  simp only [readBondsStep, hbe, hce, Bool.false_eq_true, if_false]

theorem readBondsStep_canonical (root : JValue α) (m : Molecule α)
    (hb : ∀ b ∈ m.bonds, b.order < 256)
    (hok : (readBondsStep root m).ok = true) :
    (readBondsStep root m).mol.atomicNumbers = m.atomicNumbers
    ∧ (readBondsStep root m).mol.positions3d = m.positions3d
    ∧ (readBondsStep root m).mol.positions2d = m.positions2d
    ∧ (readBondsStep root m).mol.unitCell = m.unitCell
    ∧ (readBondsStep root m).mol.dataMap = m.dataMap
    ∧ ∀ b ∈ (readBondsStep root m).mol.bonds, b.order < 256 := by
  by_cases g1 : (root.getMember "bonds").isEmpty = true
  · have hid : readBondsStep root m = ⟨m, true, []⟩ := by
      simp [readBondsStep, g1]
    rw [hid]
    exact ⟨rfl, rfl, rfl, rfl, rfl, hb⟩
  · by_cases g2 : ((root.getMember "bonds").getMember
        "connections").isEmpty = true
    · exfalso
      have g1f : (root.getMember "bonds").isEmpty = false := by
        simpa using g1
      have hfail : readBondsStep root m = ⟨m, false,
          ["Error: no \"bonds.connections\" key found"]⟩ := by
        simp [readBondsStep, g1f, g2]
      rw [hfail] at hok
      simp at hok
    · have heq := readBondsStep_eq root m (by simpa using g1)
        (by simpa using g2)
      rw [heq] at hok ⊢
      obtain ⟨ia, i3, i2, iu, idm, ib⟩ := readBondIdxBlock_core
        (((root.getMember "bonds").getMember "connections").getMember
          "index") m hb
      obtain ⟨oa, o3, o2, ou, od, ob⟩ :=
        readOrderBlock_canonical _ _ _ _ ib hok
      exact ⟨oa.trans ia, o3.trans i3, o2.trans i2, ou.trans iu,
        od.trans idm, ob⟩

/-- Every molecule a successful decode into a fresh molecule produces is
canonical. -/
theorem read_canonical (d2r : α) (ff : UnitCell α → V3 α → V3 α)
    (root : JValue α) (M : Molecule α) (errs : List String)
    (h : read d2r ff root Molecule.empty = ⟨M, true, errs⟩) :
    Canonical M := by
  unfold read at h
  split_ifs at h with g1 g2
  · exact absurd (congrArg ReadResult.ok h) (by simp)
  · exact absurd (congrArg ReadResult.ok h) (by simp)
  · have hok : (seqR (readUnitCellStep d2r root
        (readNameInchi root Molecule.empty)) (fun m2 =>
          seqR (readAtomsStep ff root m2) (fun m3 =>
            readBondsStep root m3))).ok = true := by
      rw [h]
    obtain ⟨hUCok, hrest⟩ := (seqR_ok_iff _ _).mp hok
    obtain ⟨hAok, hBok⟩ := (seqR_ok_iff _ _).mp hrest
    have hM : M = (readBondsStep root
        (readAtomsStep ff root (readUnitCellStep d2r root
          (readNameInchi root Molecule.empty)).mol).mol).mol := by
      have hh := congrArg ReadResult.mol h
      rw [seqR_mol_of_ok _ _ hUCok, seqR_mol_of_ok _ _ hAok] at hh
      exact hh.symm
    set m0 := readNameInchi root (Molecule.empty (α := α)) with hm0
    obtain ⟨na, n3, n2, nb, nu⟩ := readNameInchi_core root Molecule.empty
    set mu := (readUnitCellStep d2r root m0).mol with hmu
    obtain ⟨ua, u3, u2, ub, ud⟩ := readUnitCellStep_core d2r root m0
    have huA : mu.atomCount = 0 := by
      unfold Molecule.atomCount
      rw [ua, na]
      rfl
    have hu3 : mu.positions3d = [] := by rw [u3, n3]; rfl
    have hu2 : mu.positions2d = [] := by rw [u2, n2]; rfl
    obtain ⟨aA, a3, a2, ab, au, ad⟩ :=
      readAtomsStep_canonical ff root mu huA hu3 hu2 hAok
    set ma := (readAtomsStep ff root mu).mol with hma
    have hab256 : ∀ b ∈ ma.bonds, b.order < 256 := by
      rw [ab, ub, nb]
      intro b hbm
      exact absurd hbm (List.not_mem_nil b)
    obtain ⟨ba, b3, b2, bu, bd, bords⟩ :=
      readBondsStep_canonical root ma hab256 hBok
    have hbac : (readBondsStep root ma).mol.atomCount = ma.atomCount := by
      unfold Molecule.atomCount
      rw [ba]
    rw [hM]
    refine ⟨?_, ?_, ?_, ?_⟩
    · rw [hbac]; exact aA
    · rw [b3, hbac]
      exact a3
    · rw [b2, hbac]
      exact a2
    · exact bords

theorem readNameInchi_write (r2d : α) (tf : UnitCell α → V3 α → V3 α)
    (M : Molecule α) :
    (readNameInchi (write r2d tf M) Molecule.empty).atomicNumbers = []
    ∧ (readNameInchi (write r2d tf M) Molecule.empty).positions3d = []
    ∧ (readNameInchi (write r2d tf M) Molecule.empty).positions2d = []
    ∧ (readNameInchi (write r2d tf M) Molecule.empty).bonds = []
    ∧ (readNameInchi (write r2d tf M) Molecule.empty).unitCell = none
    ∧ (readNameInchi (write r2d tf M) Molecule.empty).data "name"
        = M.data "name"
    ∧ (readNameInchi (write r2d tf M) Molecule.empty).data "inchi"
        = M.data "inchi" := by
  simp only [readNameInchi, write_getMember_name, write_getMember_inchi]
  rcases hn : M.data "name" with _ | s <;>
    rcases hi : M.data "inchi" with _ | t <;>
      simp [JValue.isEmpty, JValue.isStringT, JValue.asString,
        Molecule.setData, Molecule.data, Molecule.empty, List.lookup]

theorem readUnitCellStep_write (d2r r2d : α)
    (tf : UnitCell α → V3 α → V3 α) (M m : Molecule α)
    (hdr : r2d * d2r = 1) :
    readUnitCellStep d2r (write r2d tf M) m
      = ⟨(match M.unitCell with
          | some uc => m.setUnitCell uc
          | none => m), true, []⟩ := by
  simp only [readUnitCellStep, write_getMember_unitcell]
  rcases huc : M.unitCell with _ | uc
  · rfl
  · have hang : ∀ x : α, x * r2d * d2r = x := by
      intro x; rw [mul_assoc, hdr, mul_one]
    simp [JValue.isObjectT, JValue.getMember, JValue.lookupMember,
      JValue.isNumericT, JValue.asDouble, Molecule.setUnitCell, hang]

theorem read3dBlock_null (n : Nat) (m : Molecule α) :
    read3dBlock JValue.null n m = ⟨m, true, []⟩ := rfl

theorem read2dBlock_null (n : Nat) (m : Molecule α) :
    read2dBlock JValue.null n m = ⟨m, true, []⟩ := rfl

theorem readFracBlock_null (ff : UnitCell α → V3 α → V3 α) (n : Nat)
    (m : Molecule α) :
    readFracBlock ff JValue.null n m = ⟨m, true, []⟩ := rfl

theorem read3dBlock_flat3 (l : List (V3 α)) (m : Molecule α)
    (hl : l.length = m.atomCount) (h1 : 0 < m.atomCount) :
    read3dBlock (JValue.arr (flat3 l)) m.atomCount m
      = ⟨{ m with positions3d := l }, true, []⟩ := by
  unfold read3dBlock
  have hsz : (JValue.arr (flat3 l)).jSize = 3 * m.atomCount := by
    show (flat3 l).length = 3 * m.atomCount
    rw [flat3_length, hl]
  rw [if_pos (show (JValue.arr (flat3 l)).isArrayT = true from rfl),
    if_neg (by rw [hsz]; omega)]
  rw [foldl_setPosition3d_jget _ _ _ rfl h1]
  have hmap : (List.range m.atomCount).map (fun i =>
      (⟨((JValue.arr (flat3 l)).jGet (3 * i + 0) (JValue.num 0)).asDouble,
        ((JValue.arr (flat3 l)).jGet (3 * i + 1) (JValue.num 0)).asDouble,
        ((JValue.arr (flat3 l)).jGet (3 * i + 2) (JValue.num 0)).asDouble⟩
        : V3 α)) = l := by
    rw [← hl]
    apply map_range_eq
    intro i hi
    obtain ⟨hx, hy, hz⟩ := flat3_getD l (JValue.num 0) i hi
    show (⟨((flat3 l).getD (3 * i + 0) (JValue.num 0)).asDouble,
      ((flat3 l).getD (3 * i + 1) (JValue.num 0)).asDouble,
      ((flat3 l).getD (3 * i + 2) (JValue.num 0)).asDouble⟩ : V3 α) = l[i]
    rw [hx, hy, hz]
    show (⟨(l.getD i ⟨0, 0, 0⟩).x, (l.getD i ⟨0, 0, 0⟩).y,
      (l.getD i ⟨0, 0, 0⟩).z⟩ : V3 α) = l[i]
    rw [List.getD_eq_getElem l _ hi]
  rw [hmap]

theorem read2dBlock_flat2 (l : List (V2 α)) (m : Molecule α)
    (hl : l.length = m.atomCount) (h1 : 0 < m.atomCount) :
    read2dBlock (JValue.arr (flat2 l)) m.atomCount m
      = ⟨{ m with positions2d := l }, true, []⟩ := by
  unfold read2dBlock
  have hsz : (JValue.arr (flat2 l)).jSize = 2 * m.atomCount := by
    show (flat2 l).length = 2 * m.atomCount
    rw [flat2_length, hl]
  rw [if_pos (show (JValue.arr (flat2 l)).isArrayT = true from rfl),
    if_neg (by rw [hsz]; omega)]
  rw [foldl_setPosition2d_jget _ _ _ rfl h1]
  have hmap : (List.range m.atomCount).map (fun i =>
      (⟨((JValue.arr (flat2 l)).jGet (2 * i + 0) (JValue.num 0)).asDouble,
        ((JValue.arr (flat2 l)).jGet (2 * i + 1) (JValue.num 0)).asDouble⟩
        : V2 α)) = l := by
    rw [← hl]
    apply map_range_eq
    intro i hi
    obtain ⟨hx, hy⟩ := flat2_getD l (JValue.num 0) i hi
    show (⟨((flat2 l).getD (2 * i + 0) (JValue.num 0)).asDouble,
      ((flat2 l).getD (2 * i + 1) (JValue.num 0)).asDouble⟩ : V2 α) = l[i]
    rw [hx, hy]
    show (⟨(l.getD i ⟨0, 0⟩).x, (l.getD i ⟨0, 0⟩).y⟩ : V2 α) = l[i]
    rw [List.getD_eq_getElem l _ hi]
  rw [hmap]

theorem readFracBlock_flat3 (ff tf : UnitCell α → V3 α → V3 α)
    (hinv : ∀ c v, ff c (tf c v) = v) (uc : UnitCell α)
    (l : List (V3 α)) (m : Molecule α)
    (hl : l.length = m.atomCount) (h1 : 0 < m.atomCount)
    (hcell : m.unitCell = some uc) :
    readFracBlock ff (JValue.arr (flat3 (l.map (tf uc)))) m.atomCount m
      = ⟨{ m with positions3d := l }, true, []⟩ := by
  unfold readFracBlock
  have hsz : (JValue.arr (flat3 (l.map (tf uc)))).jSize
      = 3 * m.atomCount := by
    show (flat3 (l.map (tf uc))).length = 3 * m.atomCount
    rw [flat3_length, List.length_map, hl]
  rw [if_pos (show (JValue.arr (flat3 (l.map (tf uc)))).isArrayT = true
      from rfl)]
  rw [if_neg (show ¬m.unitCell.isNone = true by rw [hcell]; simp),
    if_neg (by rw [hsz]; omega)]
  unfold setFractionalCoordinates
  rw [hcell]
  have hmap : ((List.range m.atomCount).map (fun i =>
      (⟨((JValue.arr (flat3 (l.map (tf uc)))).jGet (i * 3 + 0)
          (JValue.num 0)).asDouble,
        ((JValue.arr (flat3 (l.map (tf uc)))).jGet (i * 3 + 1)
          (JValue.num 0)).asDouble,
        ((JValue.arr (flat3 (l.map (tf uc)))).jGet (i * 3 + 2)
          (JValue.num 0)).asDouble⟩ : V3 α))).map (ff uc) = l := by
    rw [List.map_map]
    have hlen : m.atomCount = l.length := hl.symm
    rw [hlen]
    apply map_range_eq
    intro i hi
    have him : i < (l.map (tf uc)).length := by
      rw [List.length_map]; exact hi
    obtain ⟨hx, hy, hz⟩ := flat3_getD (l.map (tf uc)) (JValue.num 0) i him
    show ff uc (⟨((flat3 (l.map (tf uc))).getD (i * 3 + 0)
        (JValue.num 0)).asDouble,
      ((flat3 (l.map (tf uc))).getD (i * 3 + 1) (JValue.num 0)).asDouble,
      ((flat3 (l.map (tf uc))).getD (i * 3 + 2)
        (JValue.num 0)).asDouble⟩ : V3 α) = l[i]
    rw [show i * 3 + 0 = 3 * i + 0 from by ring,
      show i * 3 + 1 = 3 * i + 1 from by ring,
      show i * 3 + 2 = 3 * i + 2 from by ring]
    rw [hx, hy, hz]
    have hgd : (l.map (tf uc)).getD i (⟨0, 0, 0⟩ : V3 α)
        = tf uc l[i] := by
      rw [List.getD_eq_getElem _ _ him, List.getElem_map]
    show ff uc (⟨((l.map (tf uc)).getD i ⟨0, 0, 0⟩).x,
      ((l.map (tf uc)).getD i ⟨0, 0, 0⟩).y,
      ((l.map (tf uc)).getD i ⟨0, 0, 0⟩).z⟩ : V3 α) = l[i]
    rw [hgd]
    exact hinv uc l[i]
  simp only [hmap]

theorem read3dBlock_flat3N (l : List (V3 α)) (m : Molecule α) (n : Nat)
    (hn : n = m.atomCount) (hl : l.length = n) (h1 : 0 < n) :
    read3dBlock (JValue.arr (flat3 l)) n m
      = ⟨{ m with positions3d := l }, true, []⟩ := by
  subst hn
  exact read3dBlock_flat3 l m hl h1

theorem read2dBlock_flat2N (l : List (V2 α)) (m : Molecule α) (n : Nat)
    (hn : n = m.atomCount) (hl : l.length = n) (h1 : 0 < n) :
    read2dBlock (JValue.arr (flat2 l)) n m
      = ⟨{ m with positions2d := l }, true, []⟩ := by
  subst hn
  exact read2dBlock_flat2 l m hl h1

theorem readFracBlock_flat3N (ff tf : UnitCell α → V3 α → V3 α)
    (hinv : ∀ c v, ff c (tf c v) = v) (uc : UnitCell α)
    (l : List (V3 α)) (m : Molecule α) (n : Nat)
    (hn : n = m.atomCount) (hl : l.length = n) (h1 : 0 < n)
    (hcell : m.unitCell = some uc) :
    readFracBlock ff (JValue.arr (flat3 (l.map (tf uc)))) n m
      = ⟨{ m with positions3d := l }, true, []⟩ := by
  subst hn
  exact readFracBlock_flat3 ff tf hinv uc l m hl h1 hcell

theorem readCoordsStep_write (tf ff : UnitCell α → V3 α → V3 α)
    (hinv : ∀ c v, ff c (tf c v) = v) (E : JValue α) (M m : Molecule α)
    (hac : m.atomCount = M.atomCount) (h1 : 0 < M.atomCount)
    (h3 : M.positions3d.length = 0 ∨ M.positions3d.length = M.atomCount)
    (h2 : M.positions2d.length = 0 ∨ M.positions2d.length = M.atomCount)
    (m3 : m.positions3d = []) (m2 : m.positions2d = [])
    (mu : m.unitCell = M.unitCell) :
    readCoordsStep ff (JValue.obj (("elements", E) :: writeCoords tf M))
      M.atomCount m
      = ⟨{ m with
           positions3d := M.positions3d,
           positions2d := M.positions2d }, true, []⟩ := by
  rcases h3 with h30 | h3N
  · have hl3 : ¬M.positions3d.length = M.atomCount := by omega
    have h3e : M.positions3d = [] := by
      cases hx : M.positions3d with
      | nil => rfl
      | cons v t => rw [hx] at h30; simp at h30
    have hR : ({ m with
        positions3d := M.positions3d,
        positions2d := M.positions2d } : Molecule α)
        = { m with positions2d := M.positions2d } := by
      rw [h3e, ← m3]
    rw [hR]
    rcases h2 with h20 | h2N
    · have hl2 : ¬M.positions2d.length = M.atomCount := by omega
      have h2e : M.positions2d = [] := by
        cases hx : M.positions2d with
        | nil => rfl
        | cons v t => rw [hx] at h20; simp at h20
      have hR2 : ({ m with positions2d := M.positions2d } : Molecule α)
          = m := by
        rw [h2e, ← m2]
      rw [hR2]
      have hwc : writeCoords tf M = [] := by
        simp [writeCoords, hl3, hl2]
      simp [readCoordsStep, hwc, JValue.getMember, JValue.lookupMember,
        JValue.isEmpty]
    · have hwc : writeCoords tf M = [("coords", JValue.obj
          [("2d", JValue.arr (flat2 M.positions2d))])] := by
        simp [writeCoords, hl3, h2N]
      have e2 := read2dBlock_flat2N M.positions2d m M.atomCount
        hac.symm h2N h1
      simp only [readCoordsStep, hwc]
      simp [JValue.getMember, JValue.lookupMember, JValue.isEmpty, seqR,
        read3dBlock_null, readFracBlock_null, e2]
  · rcases hcell : M.unitCell with _ | uc
    · rcases h2 with h20 | h2N
      · have hl2 : ¬M.positions2d.length = M.atomCount := by omega
        have h2e : M.positions2d = [] := by
          cases hx : M.positions2d with
          | nil => rfl
          | cons v t => rw [hx] at h20; simp at h20
        have hR : ({ m with
            positions3d := M.positions3d,
            positions2d := M.positions2d } : Molecule α)
            = { m with positions3d := M.positions3d } := by
          rw [h2e, ← m2]
        rw [hR]
        have hwc : writeCoords tf M = [("coords", JValue.obj
            [("3d", JValue.arr (flat3 M.positions3d))])] := by
          simp [writeCoords, h3N, hcell, hl2]
        have e3 := read3dBlock_flat3N M.positions3d m M.atomCount
          hac.symm h3N h1
        simp only [readCoordsStep, hwc]
        simp [JValue.getMember, JValue.lookupMember, JValue.isEmpty, seqR,
          read2dBlock_null, readFracBlock_null, e3]
      · have hwc : writeCoords tf M = [("coords", JValue.obj
            [("3d", JValue.arr (flat3 M.positions3d)),
             ("2d", JValue.arr (flat2 M.positions2d))])] := by
          simp [writeCoords, h3N, hcell, h2N]
        have e3 := read3dBlock_flat3N M.positions3d m M.atomCount
          hac.symm h3N h1
        have e2 := read2dBlock_flat2N M.positions2d
          ({ m with positions3d := M.positions3d }) M.atomCount
          hac.symm h2N h1
        simp only [readCoordsStep, hwc]
        simp [JValue.getMember, JValue.lookupMember, JValue.isEmpty, seqR,
          readFracBlock_null, e3, e2]
    · rcases h2 with h20 | h2N
      · have hl2 : ¬M.positions2d.length = M.atomCount := by omega
        have h2e : M.positions2d = [] := by
          cases hx : M.positions2d with
          | nil => rfl
          | cons v t => rw [hx] at h20; simp at h20
        have hR : ({ m with
            positions3d := M.positions3d,
            positions2d := M.positions2d } : Molecule α)
            = { m with positions3d := M.positions3d } := by
          rw [h2e, ← m2]
        rw [hR]
        have hwc : writeCoords tf M = [("coords", JValue.obj
            [("3d fractional",
              JValue.arr (flat3 (M.positions3d.map (tf uc))))])] := by
          simp [writeCoords, h3N, hcell, hl2]
        have ef := readFracBlock_flat3N ff tf hinv uc M.positions3d m
          M.atomCount hac.symm h3N h1 (mu.trans hcell)
        simp only [readCoordsStep, hwc]
        simp [JValue.getMember, JValue.lookupMember, JValue.isEmpty, seqR,
          read3dBlock_null, read2dBlock_null, ef]
      · have hwc : writeCoords tf M = [("coords", JValue.obj
            [("3d fractional",
              JValue.arr (flat3 (M.positions3d.map (tf uc)))),
             ("2d", JValue.arr (flat2 M.positions2d))])] := by
          simp [writeCoords, h3N, hcell, h2N]
        have e2 := read2dBlock_flat2N M.positions2d m M.atomCount
          hac.symm h2N h1
        have ef := readFracBlock_flat3N ff tf hinv uc M.positions3d
          ({ m with positions2d := M.positions2d }) M.atomCount
          hac.symm h3N h1 (mu.trans hcell)
        simp only [readCoordsStep, hwc]
        simp [JValue.getMember, JValue.lookupMember, JValue.isEmpty, seqR,
          read3dBlock_null, e2, ef]

theorem readAtomsStep_obj (ff : UnitCell α → V3 α → V3 α)
    (root : JValue α) (nums : List (JValue α))
    (wc : List (String × JValue α)) (m : Molecule α)
    (hA : root.getMember "atoms" = JValue.obj
      (("elements", JValue.obj [("number", JValue.arr nums)]) :: wc))
    (hne : nums.isEmpty = false) :
    readAtomsStep ff root m
      = readCoordsStep ff (JValue.obj
          (("elements", JValue.obj [("number", JValue.arr nums)]) :: wc))
          nums.length
          ((List.range nums.length).foldl (fun mm i =>
            mm.addAtom (toUChar ((nums.getD i (JValue.num 0)).asInt))) m) := by
  simp only [readAtomsStep, hA]
  simp [JValue.isEmpty, JValue.isObjectT, JValue.getMember,
    JValue.lookupMember, JValue.isArrayT, JValue.jSize, JValue.jGet, hne]

theorem readAtomsStep_write (r2d : α) (tf ff : UnitCell α → V3 α → V3 α)
    (hinv : ∀ c v, ff c (tf c v) = v) (M m : Molecule α)
    (hN : 1 ≤ M.atomCount)
    (h3 : M.positions3d.length = 0 ∨ M.positions3d.length = M.atomCount)
    (h2 : M.positions2d.length = 0 ∨ M.positions2d.length = M.atomCount)
    (ma : m.atomicNumbers = []) (m3 : m.positions3d = [])
    (m2 : m.positions2d = []) (mu : m.unitCell = M.unitCell) :
    readAtomsStep ff (write r2d tf M) m
      = ⟨{ m with
           atomicNumbers := M.atomicNumbers.map (fun z => toUChar (Int.ofNat z)),
           positions3d := M.positions3d,
           positions2d := M.positions2d }, true, []⟩ := by
  have hA := write_getMember_atoms r2d tf M
  rw [if_pos (show M.atomCount ≠ 0 by omega)] at hA
  simp only [List.singleton_append] at hA
  have hnil : M.atomicNumbers ≠ [] := by
    intro hx
    unfold Molecule.atomCount at hN
    rw [hx] at hN
    simp at hN
  have hne : (M.atomicNumbers.map (jNatNum (α := α))).isEmpty = false := by
    cases hx : M.atomicNumbers with
    | nil => exact absurd hx hnil
    | cons z t => simp
  rw [readAtomsStep_obj ff (write r2d tf M)
    (M.atomicNumbers.map jNatNum) (writeCoords tf M) m hA hne]
  rw [List.length_map,
    show M.atomicNumbers.length = M.atomCount from rfl]
  rw [foldl_addAtom, ma, List.nil_append]
  have hmr : (List.range M.atomCount).map (fun i =>
      toUChar (((M.atomicNumbers.map (jNatNum (α := α))).getD i
        (JValue.num 0)).asInt))
      = M.atomicNumbers.map (fun z => toUChar (Int.ofNat z)) := by
    have hlen : M.atomCount
        = (M.atomicNumbers.map (fun z => toUChar (Int.ofNat z))).length := by
      unfold Molecule.atomCount
      rw [List.length_map]
    rw [hlen]
    apply map_range_eq
    intro i hi
    have hil : i < M.atomicNumbers.length := by
      rw [List.length_map] at hi
      exact hi
    have him : i < (M.atomicNumbers.map (jNatNum (α := α))).length := by
      rw [List.length_map]
      exact hil
    rw [List.getD_eq_getElem _ _ him, List.getElem_map, asInt_jNatNum,
      List.getElem_map]
    rfl
  rw [hmr]
  have hac1 : ({ m with
      atomicNumbers := M.atomicNumbers.map (fun z => toUChar (Int.ofNat z)) }
        : Molecule α).atomCount = M.atomCount := by
    unfold Molecule.atomCount
    rw [List.length_map]
  rw [readCoordsStep_write tf ff hinv
    (JValue.obj [("number", JValue.arr (M.atomicNumbers.map jNatNum))]) M
    ({ m with
       atomicNumbers := M.atomicNumbers.map (fun z => toUChar (Int.ofNat z)) })
    hac1 (by omega) h3 h2 m3 m2 mu]

theorem readBondIdxBlock_write (M m : Molecule α) (hmb : m.bonds = [])
    (hidx : ∀ b ∈ M.bonds, b.atom1 < 2 ^ 32 ∧ b.atom2 < 2 ^ 32) :
    readBondIdxBlock (JValue.arr (M.bonds.flatMap (fun b =>
        [jNatNum (toJsonUInt b.atom1), jNatNum (toJsonUInt b.atom2)]))) m
      = ({ m with bonds := M.bonds.map (fun b =>
            (⟨b.atom1, b.atom2, 1⟩ : Bond)) }, M.bonds.length, []) := by
  set idxl : List (JValue α) := M.bonds.flatMap (fun b =>
    [jNatNum (toJsonUInt b.atom1), jNatNum (toJsonUInt b.atom2)]) with hidxl
  unfold readBondIdxBlock
  rw [if_pos (show (JValue.arr idxl).isArrayT = true from rfl)]
  have hsz : (JValue.arr idxl).jSize = 2 * M.bonds.length := by
    show idxl.length = 2 * M.bonds.length
    rw [hidxl]
    exact flatPairs_length M.bonds
  rw [hsz, Nat.mul_div_cancel_left _ (by norm_num : 0 < 2)]
  rw [foldl_addBond, hmb, List.nil_append]
  have hbl : (List.range M.bonds.length).map (fun i =>
      (⟨toIndex (((JValue.arr idxl).jGet (2 * i + 0) (JValue.num 0)).asInt),
        toIndex (((JValue.arr idxl).jGet (2 * i + 1) (JValue.num 0)).asInt),
        1⟩ : Bond))
      = M.bonds.map (fun b => (⟨b.atom1, b.atom2, 1⟩ : Bond)) := by
    have hlen : M.bonds.length
        = (M.bonds.map (fun b => (⟨b.atom1, b.atom2, 1⟩ : Bond))).length := by
      rw [List.length_map]
    rw [hlen]
    apply map_range_eq
    intro i hi
    rw [List.length_map] at hi
    obtain ⟨h1, h2⟩ := flatPairs_getD (α := α) M.bonds (JValue.num 0) i hi
    rw [← hidxl] at h1 h2
    show (⟨toIndex ((idxl.getD (2 * i + 0) (JValue.num 0)).asInt),
      toIndex ((idxl.getD (2 * i + 1) (JValue.num 0)).asInt), 1⟩ : Bond) = _
    rw [h1, h2, asInt_jNatNum, asInt_jNatNum]
    have hb := List.getD_eq_getElem M.bonds (⟨0, 0, 0⟩ : Bond) hi
    have hmem : M.bonds[i] ∈ M.bonds := List.getElem_mem hi
    obtain ⟨ha1, ha2⟩ := hidx M.bonds[i] hmem
    have hcast : ∀ n : Nat, toIndex ((n % 2 ^ 32 : Nat) : ℤ) = n % 2 ^ 32 := by
      intro n
      refine toIndex_ofNat _ ?_
      have hx : n % 2 ^ 32 < 2 ^ 32 := Nat.mod_lt _ (by norm_num)
      omega
    rw [hb]
    rw [show toJsonUInt M.bonds[i].atom1 = M.bonds[i].atom1 % 2 ^ 32 from rfl,
      show toJsonUInt M.bonds[i].atom2 = M.bonds[i].atom2 % 2 ^ 32 from rfl]
    rw [hcast, hcast, Nat.mod_eq_of_lt ha1, Nat.mod_eq_of_lt ha2,
      List.getElem_map]
  rw [hbl]

theorem readOrderBlock_write (M m : Molecule α)
    (hmb : m.bonds = M.bonds.map (fun b => (⟨b.atom1, b.atom2, 1⟩ : Bond)))
    (hord : ∀ b ∈ M.bonds, b.order < 256) :
    readOrderBlock (JValue.arr (M.bonds.map (fun b => jNatNum b.order)))
      M.bonds.length [] m
      = ⟨{ m with bonds := M.bonds }, true, []⟩ := by
  unfold readOrderBlock
  rw [if_pos (show (JValue.arr (M.bonds.map (fun b =>
    jNatNum (α := α) b.order))).isArrayT = true from rfl)]
  have hsz : (JValue.arr (M.bonds.map (fun b =>
      jNatNum (α := α) b.order))).jSize = M.bonds.length := by
    show (M.bonds.map _).length = M.bonds.length
    rw [List.length_map]
  rw [if_neg (show ¬M.bonds.length ≠ (JValue.arr (M.bonds.map (fun b =>
    jNatNum (α := α) b.order))).jSize by rw [hsz]; omega)]
  rw [foldl_setBondOrder_bridge, hmb]
  rw [List.range_eq_range']
  rw [foldl_range'_setOrd _ _ 0 _ (by rw [List.length_map]; omega)]
  have hend : ((M.bonds.map (fun b =>
      (⟨b.atom1, b.atom2, 1⟩ : Bond))).drop 0).mapIdx (fun i b =>
        (⟨b.atom1, b.atom2, toUChar (((JValue.arr (M.bonds.map (fun b =>
          jNatNum (α := α) b.order))).jGet (0 + i)
            (JValue.num 1)).asInt)⟩ : Bond))
      = M.bonds := by
    rw [List.drop_zero]
    apply List.ext_get
    · rw [List.length_mapIdx, List.length_map]
    · intro i hil hir
      rw [List.get_mapIdx]
      show (⟨((M.bonds.map (fun b => (⟨b.atom1, b.atom2, 1⟩ : Bond))).get
          _).atom1,
        ((M.bonds.map (fun b => (⟨b.atom1, b.atom2, 1⟩ : Bond))).get
          _).atom2,
        toUChar ((((M.bonds.map (fun b => jNatNum (α := α) b.order))).getD
          (0 + i) (JValue.num 1)).asInt)⟩ : Bond) = M.bonds.get ⟨i, hir⟩
      have hi : i < M.bonds.length := hir
      have him : i < (M.bonds.map (fun b =>
          jNatNum (α := α) b.order)).length := by
        rw [List.length_map]; exact hi
      rw [Nat.zero_add, List.getD_eq_getElem _ _ him, List.getElem_map,
        asInt_jNatNum]
      have hmem : M.bonds[i] ∈ M.bonds := List.getElem_mem hi
      rw [toUChar_ofNat _ (hord M.bonds[i] hmem)]
      simp [List.get_eq_getElem]
      rw [List.length_map]
      exact hir
  rw [List.take_zero, List.nil_append, hend]

theorem readBondsStep_write (r2d : α) (tf : UnitCell α → V3 α → V3 α)
    (M m : Molecule α) (hmb : m.bonds = [])
    (hidx : ∀ b ∈ M.bonds, b.atom1 < 2 ^ 32 ∧ b.atom2 < 2 ^ 32)
    (hord : ∀ b ∈ M.bonds, b.order < 256) :
    readBondsStep (write r2d tf M) m
      = ⟨{ m with bonds := M.bonds }, true, []⟩ := by
  have hB := write_getMember_bonds r2d tf M
  have hR : ({ m with bonds := M.bonds } : Molecule α)
      = ({ m with bonds := M.bonds } : Molecule α) := rfl
  by_cases hMb : M.bonds = []
  · rw [if_neg (by rw [hMb]; simp)] at hB
    rw [show ({ m with bonds := M.bonds } : Molecule α) = m by
      rw [hMb, ← hmb]]
    simp [readBondsStep, hB, JValue.isEmpty]
  · have hBne : M.bonds.length ≠ 0 := by
      intro hx
      exact hMb (List.length_eq_zero.mp hx)
    rw [if_pos hBne] at hB
    simp only [readBondsStep, hB]
    have hbe : (JValue.obj
        [("connections", JValue.obj [("index", JValue.arr
           (M.bonds.flatMap (fun b => [jNatNum (α := α)
             (toJsonUInt b.atom1), jNatNum (toJsonUInt b.atom2)])))]),
         ("order", JValue.arr (M.bonds.map (fun b =>
           jNatNum (α := α) b.order)))]).isEmpty = false := rfl
    have hconn : (JValue.obj
        [("connections", JValue.obj [("index", JValue.arr
           (M.bonds.flatMap (fun b => [jNatNum (α := α)
             (toJsonUInt b.atom1), jNatNum (toJsonUInt b.atom2)])))]),
         ("order", JValue.arr (M.bonds.map (fun b =>
           jNatNum (α := α) b.order)))]).getMember "connections"
        = JValue.obj [("index", JValue.arr
           (M.bonds.flatMap (fun b => [jNatNum (α := α)
             (toJsonUInt b.atom1), jNatNum (toJsonUInt b.atom2)])))] := by
      simp [JValue.getMember, JValue.lookupMember]
    have hordm : (JValue.obj
        [("connections", JValue.obj [("index", JValue.arr
           (M.bonds.flatMap (fun b => [jNatNum (α := α)
             (toJsonUInt b.atom1), jNatNum (toJsonUInt b.atom2)])))]),
         ("order", JValue.arr (M.bonds.map (fun b =>
           jNatNum (α := α) b.order)))]).getMember "order"
        = JValue.arr (M.bonds.map (fun b =>
            jNatNum (α := α) b.order)) := by
      simp [JValue.getMember, JValue.lookupMember]
    have hidxm : (JValue.obj [("index", JValue.arr
        (M.bonds.flatMap (fun b => [jNatNum (α := α)
          (toJsonUInt b.atom1), jNatNum (toJsonUInt b.atom2)])))]).getMember
        "index" = JValue.arr (M.bonds.flatMap (fun b => [jNatNum (α := α)
          (toJsonUInt b.atom1), jNatNum (toJsonUInt b.atom2)])) := by
      simp [JValue.getMember, JValue.lookupMember]
    have hro := readOrderBlock_write M
      ({ m with bonds := M.bonds.map (fun b =>
          (⟨b.atom1, b.atom2, 1⟩ : Bond)) }) rfl hord
    simp [hbe, hconn, hordm, hidxm, JValue.isEmpty,
      readBondIdxBlock_write M m hmb hidx, hro]

/-- Full round trip: decoding the document written from a canonical
molecule whose bond indices fit jsoncpp's 32-bit `UInt` succeeds and
reproduces the atom count, both position arrays, the bonds with their
orders, the unit cell, and the name/inchi metadata. -/
theorem read_write (d2r r2d : α) (tf ff : UnitCell α → V3 α → V3 α)
    (hdr : r2d * d2r = 1) (hinv : ∀ c v, ff c (tf c v) = v)
    (M : Molecule α) (hcan : Canonical M)
    (hidx : ∀ b ∈ M.bonds, b.atom1 < 2 ^ 32 ∧ b.atom2 < 2 ^ 32) :
    (read d2r ff (write r2d tf M) Molecule.empty).ok = true
    ∧ (read d2r ff (write r2d tf M) Molecule.empty).mol.atomCount
        = M.atomCount
    ∧ (read d2r ff (write r2d tf M) Molecule.empty).mol.positions3d
        = M.positions3d
    ∧ (read d2r ff (write r2d tf M) Molecule.empty).mol.positions2d
        = M.positions2d
    ∧ (read d2r ff (write r2d tf M) Molecule.empty).mol.bonds = M.bonds
    ∧ (read d2r ff (write r2d tf M) Molecule.empty).mol.unitCell
        = M.unitCell
    ∧ (read d2r ff (write r2d tf M) Molecule.empty).mol.data "name"
        = M.data "name"
    ∧ (read d2r ff (write r2d tf M) Molecule.empty).mol.data "inchi"
        = M.data "inchi" := by
  obtain ⟨hN, h3, h2, hord⟩ := hcan
  obtain ⟨n0a, n03, n02, n0b, n0u, n0n, n0i⟩ := readNameInchi_write r2d tf M
  have hU := readUnitCellStep_write d2r r2d tf M
    (readNameInchi (write r2d tf M) Molecule.empty) hdr
  unfold read
  rw [if_neg (by simp [write_isObjectT]),
    if_neg (by rw [write_getMember_cj]; simp [JValue.isEmpty])]
  rcases huc : M.unitCell with _ | uc
  · rw [huc] at hU
    have hAt := readAtomsStep_write r2d tf ff hinv M
      (readNameInchi (write r2d tf M) Molecule.empty) hN h3 h2
      n0a n03 n02 (n0u.trans huc.symm)
    have hBo := readBondsStep_write r2d tf M
      ({ readNameInchi (write r2d tf M) Molecule.empty with
         atomicNumbers :=
           M.atomicNumbers.map (fun z => toUChar (Int.ofNat z)),
         positions3d := M.positions3d,
         positions2d := M.positions2d }) n0b hidx hord
    simp only [hU, seqR, hAt, hBo]
    norm_num
    refine ⟨?_, n0u, n0n, n0i⟩
    unfold Molecule.atomCount
    rw [List.length_map]
  · rw [huc] at hU
    have hAt := readAtomsStep_write r2d tf ff hinv M
      ((readNameInchi (write r2d tf M) Molecule.empty).setUnitCell uc)
      hN h3 h2 n0a n03 n02 huc.symm
    have hBo := readBondsStep_write r2d tf M
      ({ (readNameInchi (write r2d tf M) Molecule.empty).setUnitCell uc with
         atomicNumbers :=
           M.atomicNumbers.map (fun z => toUChar (Int.ofNat z)),
         positions3d := M.positions3d,
         positions2d := M.positions2d }) n0b hidx hord
    simp only [hU, seqR, hAt, hBo]
    norm_num
    refine ⟨?_, rfl, n0n, n0i⟩
    unfold Molecule.atomCount
    rw [List.length_map]

end RoundTrip3

/-! ## Claims -/

section Claims

/-- **C2, counterexample.**  The claim says the identity check passes
whenever the document contains a `chemical json` key "with any value
including an empty one".  The document `{"chemical json": null}` contains
the key, yet decoding fails with the identity-check structural error,
because jsoncpp's `empty()` is true of a `null` member. -/
theorem C2_counterexample :
    "chemical json"
        ∈ ([("chemical json", JValue.null)] :
            List (String × JValue ℚ)).map Prod.fst
      ∧ read (1 : ℚ) (fun _ v => v)
          (JValue.obj [("chemical json", JValue.null)]) Molecule.empty
        = ⟨Molecule.empty, false, ["Error: no \"chemical json\" key found."]⟩ := by
  constructor
  · decide
  · rfl

/-- **C2 (amended).**  For every JSON-object document, decode fails at the
format-identity check (returning failure with exactly the structural
message `Error: no "chemical json" key found.` and an untouched molecule)
if and only if the `chemical json` member is empty in jsoncpp's sense —
absent, `null`, an empty array, or an empty object.  Presence with any
scalar value (even `0`, `false` or `""`) or non-empty aggregate passes
the check; in particular an absent key always fails this way, regardless
of otherwise-valid atom data. -/
theorem C2_identity_check {α : Type} [LinearOrderedField α] [FloorRing α]
    (d2r : α) (ff : UnitCell α → V3 α → V3 α)
    (members : List (String × JValue α)) (mol : Molecule α) :
    (read d2r ff (JValue.obj members) mol
        = ⟨mol, false, ["Error: no \"chemical json\" key found."]⟩
      ↔ (JValue.lookupMember members "chemical json").isEmpty = true)
    ∧ ("chemical json" ∉ members.map Prod.fst →
        read d2r ff (JValue.obj members) mol
          = ⟨mol, false, ["Error: no \"chemical json\" key found."]⟩) := by
  have hobj : (JValue.obj members).isObjectT = true := rfl
  have hget : (JValue.obj members).getMember "chemical json"
      = JValue.lookupMember members "chemical json" := rfl
  constructor
  · constructor
    · intro heq
      by_contra hne
      have hne' : (JValue.lookupMember members "chemical json").isEmpty
          = false := by
        cases h : (JValue.lookupMember members "chemical json").isEmpty
        · rfl
        · exact absurd h hne
      have hlate := read_errors_late d2r ff (JValue.obj members) mol hobj
        (by rw [hget]; exact hne')
      rw [heq] at hlate
      exact identity_not_late
        (hlate _ (by simp))
    · intro hemp
      rw [read, if_neg (by simp [hobj]), if_pos (by rw [hget]; exact hemp)]
  · intro habs
    have hemp : (JValue.lookupMember members "chemical json").isEmpty
        = true := by
      rw [lookupMember_of_not_mem members _ habs]
      rfl
    rw [read, if_neg (by simp [hobj]), if_pos (by rw [hget]; exact hemp)]

/-- **C2, witness for the amended theorem**: the document
`{"chemical json": 0}` (the very value the encoder emits) passes the
identity check, and `{"atoms": …}` without the key fails it. -/
theorem C2_identity_check_witness :
    ¬ (read (1 : ℚ) (fun _ v => v)
        (JValue.obj [("chemical json", JValue.num 0)]) Molecule.empty
      = ⟨Molecule.empty, false, ["Error: no \"chemical json\" key found."]⟩)
    ∧ read (1 : ℚ) (fun _ v => v)
        (JValue.obj [("atoms", JValue.obj
          [("elements", JValue.obj [("number", JValue.arr [JValue.num 6])])])])
        Molecule.empty
      = ⟨Molecule.empty, false, ["Error: no \"chemical json\" key found."]⟩ := by
  constructor
  · intro h
    exact absurd ((C2_identity_check (1 : ℚ) (fun _ v => v)
      [("chemical json", JValue.num 0)] Molecule.empty).1.mp h) (by decide)
  · exact (C2_identity_check (1 : ℚ) (fun _ v => v)
      [("atoms", JValue.obj
        [("elements", JValue.obj [("number", JValue.arr [JValue.num 6])])])]
      Molecule.empty).2 (by decide)

/-- **C10.**  If the document's `unit cell` member is present but not a
JSON object (a number, string, boolean, array or null), the decoder
silently skips it: no error is recorded, no unit cell is attached, and
decoding continues to a successful end (first conjunct, over documents
with otherwise-valid atom data).  The six-field numeric validation runs
only for object values: an object missing a numeric `a` is fatal with
the unit-cell error (second conjunct). -/
theorem C10_unit_cell_skip {α : Type} [LinearOrderedField α] [FloorRing α]
    (d2r : α) (ff : UnitCell α → V3 α → V3 α) (v : JValue α)
    (hv : v.isObjectT = false) (nums : List (JValue α))
    (hn : nums.isEmpty = false) (ucm : List (String × JValue α))
    (ha : (JValue.lookupMember ucm "a").isNumericT = false) :
    (read d2r ff (JValue.obj
        [("chemical json", JValue.num 1),
         ("unit cell", v),
         ("atoms", JValue.obj
           [("elements", JValue.obj [("number", JValue.arr nums)])])])
        Molecule.empty
      = ⟨{ Molecule.empty with
            atomicNumbers :=
              (List.range nums.length).map (fun i =>
                toUChar ((nums.getD i (JValue.num 0)).asInt)) },
         true, []⟩)
    ∧ (read d2r ff (JValue.obj
        [("chemical json", JValue.num 1),
         ("unit cell", JValue.obj ucm),
         ("atoms", JValue.obj
           [("elements", JValue.obj [("number", JValue.arr nums)])])])
        Molecule.empty
      = ⟨Molecule.empty, false,
         ["Invalid unit cell specification: a, b, c, alpha, beta, gamma must be present and numeric."]⟩) := by
  constructor
  · rw [read, if_neg (by simp [JValue.isObjectT]),
      if_neg (by simp [JValue.getMember, JValue.lookupMember, JValue.isEmpty])]
    rw [show readNameInchi (α := α) _ Molecule.empty = Molecule.empty by
      simp [readNameInchi, JValue.getMember, JValue.lookupMember,
        JValue.isEmpty]]
    rw [show readUnitCellStep d2r _ (Molecule.empty (α := α))
        = ⟨Molecule.empty, true, []⟩ by
      simp [readUnitCellStep, JValue.getMember, JValue.lookupMember, hv]]
    simp [readAtomsStep, readCoordsStep, readBondsStep, seqR,
      JValue.getMember, JValue.lookupMember, JValue.isEmpty,
      JValue.isObjectT, JValue.isArrayT, JValue.jSize, JValue.jGet,
      hn, foldl_addAtom, Molecule.empty, List.getD]
  · rw [read, if_neg (by simp [JValue.isObjectT]),
      if_neg (by simp [JValue.getMember, JValue.lookupMember, JValue.isEmpty])]
    rw [show readNameInchi (α := α) _ Molecule.empty = Molecule.empty by
      simp [readNameInchi, JValue.getMember, JValue.lookupMember,
        JValue.isEmpty]]
    rw [show readUnitCellStep d2r _ (Molecule.empty (α := α))
        = ⟨Molecule.empty, false,
           ["Invalid unit cell specification: a, b, c, alpha, beta, gamma must be present and numeric."]⟩ by
      simp [readUnitCellStep, JValue.getMember, JValue.lookupMember,
        JValue.isObjectT, ha]]
    simp [seqR]

/-- **C10, witness**: a numeric `unit cell` value (`5`) is skipped with a
clean success, and `{"unit cell": {}}` (an object with no numeric `a`)
is fatal. -/
theorem C10_unit_cell_skip_witness :
    (read (1 : ℚ) (fun _ v => v) (JValue.obj
        [("chemical json", JValue.num 1),
         ("unit cell", JValue.num 5),
         ("atoms", JValue.obj
           [("elements", JValue.obj [("number", JValue.arr [JValue.num 6])])])])
        Molecule.empty
      = ⟨{ Molecule.empty with atomicNumbers := [6] }, true, []⟩)
    ∧ (read (1 : ℚ) (fun _ v => v) (JValue.obj
        [("chemical json", JValue.num 1),
         ("unit cell", JValue.obj []),
         ("atoms", JValue.obj
           [("elements", JValue.obj [("number", JValue.arr [JValue.num 6])])])])
        Molecule.empty
      = ⟨Molecule.empty, false,
         ["Invalid unit cell specification: a, b, c, alpha, beta, gamma must be present and numeric."]⟩) := by
  have h := C10_unit_cell_skip (α := ℚ) 1 (fun _ v => v) (JValue.num 5)
    (by decide) [JValue.num 6] (by decide) [] (by decide)
  constructor
  · exact h.1.trans (by decide)
  · exact h.2

/-- **C4.**  A document carrying an `atoms.coords.3d fractional` array
while decoding attached no unit cell (here: no `unit cell` key at all, so
the skip path of the unit-cell block ran) fails with the referential
error `Cannot interpret fractional coordinates without unit cell.` before
reading any fractional coordinate value: the failure is independent of
the array's contents and length, and the returned molecule carries no 3D
positions. -/
theorem C4_fractional_without_cell {α : Type} [LinearOrderedField α]
    [FloorRing α] (d2r : α) (ff : UnitCell α → V3 α → V3 α)
    (nums : List (JValue α)) (hn : nums.isEmpty = false)
    (fr : List (JValue α)) :
    read d2r ff (JValue.obj
        [("chemical json", JValue.num 1),
         ("atoms", JValue.obj
           [("elements", JValue.obj [("number", JValue.arr nums)]),
            ("coords", JValue.obj [("3d fractional", JValue.arr fr)])])])
        Molecule.empty
      = ⟨{ Molecule.empty with
            atomicNumbers :=
              (List.range nums.length).map (fun i =>
                toUChar ((nums.getD i (JValue.num 0)).asInt)) },
         false,
         ["Cannot interpret fractional coordinates without unit cell."]⟩ := by
  rw [read, if_neg (by simp [JValue.isObjectT]),
    if_neg (by simp [JValue.getMember, JValue.lookupMember, JValue.isEmpty])]
  rw [show readNameInchi (α := α) _ Molecule.empty = Molecule.empty by
    simp [readNameInchi, JValue.getMember, JValue.lookupMember,
      JValue.isEmpty]]
  rw [show readUnitCellStep d2r _ (Molecule.empty (α := α))
      = ⟨Molecule.empty, true, []⟩ by
    simp [readUnitCellStep, JValue.getMember, JValue.lookupMember,
      JValue.isObjectT]]
  simp [readAtomsStep, readCoordsStep, readBondsStep, seqR,
    read3dBlock, read2dBlock, readFracBlock,
    JValue.getMember, JValue.lookupMember, JValue.isEmpty,
    JValue.isObjectT, JValue.isArrayT, JValue.jSize, JValue.jGet,
    hn, foldl_addAtom, Molecule.empty, List.getD]

/-- **C4, witness**: one carbon atom and `3d fractional: [0.5]` with no
unit cell fail exactly this way. -/
theorem C4_fractional_without_cell_witness :
    read (1 : ℚ) (fun _ v => v) (JValue.obj
        [("chemical json", JValue.num 1),
         ("atoms", JValue.obj
           [("elements", JValue.obj [("number", JValue.arr [JValue.num 6])]),
            ("coords", JValue.obj
              [("3d fractional", JValue.arr [JValue.num (1/2)])])])])
        Molecule.empty
      = ⟨{ Molecule.empty with atomicNumbers := [6] }, false,
         ["Cannot interpret fractional coordinates without unit cell."]⟩ :=
  (C4_fractional_without_cell (1 : ℚ) (fun _ v => v) [JValue.num 6]
    (by decide) [JValue.num (1/2)]).trans (by decide)

/-- **C3, counterexample.**  The claim says any non-empty `coords.3d`
array whose length is not exactly 3N fails decode.  With N = 1 atom and a
`3d` array of length 4 (`[1,2,3,4]`, not a multiple of 3), the check
`atomCount != value.size()/3` compares 1 with `4/3 = 1` (integer
division), so decode succeeds and reads the first three entries as the
atom's position. -/
theorem C3_counterexample :
    read (1 : ℚ) (fun _ v => v) (JValue.obj
        [("chemical json", JValue.num 1),
         ("atoms", JValue.obj
           [("elements", JValue.obj [("number", JValue.arr [JValue.num 6])]),
            ("coords", JValue.obj
              [("3d", JValue.arr
                [JValue.num 1, JValue.num 2, JValue.num 3, JValue.num 4])])])])
        Molecule.empty
      = ⟨{ Molecule.empty with
           atomicNumbers := [6],
           positions3d := [⟨1, 2, 3⟩] }, true, []⟩ := by
  decide

/-- **C3 (amended).**  For a document with atom count N (length of
`elements.number`) and a `coords.3d` array: decode fails with the 3D
cardinality error — writing no 3D positions — if and only if the array is
non-empty and its length divided by 3 with integer division differs from
N (so lengths 3N+1 and 3N+2 are also tolerated, not just 3N); otherwise
(zero-length array included) decode succeeds, reading each atom's
position components through `get` with default 0. -/
theorem C3_coord_cardinality {α : Type} [LinearOrderedField α]
    [FloorRing α] (d2r : α) (ff : UnitCell α → V3 α → V3 α)
    (nums : List (JValue α)) (hn : nums.isEmpty = false)
    (c3 : List (JValue α)) :
    (read d2r ff (JValue.obj
        [("chemical json", JValue.num 1),
         ("atoms", JValue.obj
           [("elements", JValue.obj [("number", JValue.arr nums)]),
            ("coords", JValue.obj [("3d", JValue.arr c3)])])])
        Molecule.empty
      = ⟨{ Molecule.empty with
            atomicNumbers :=
              (List.range nums.length).map (fun i =>
                toUChar ((nums.getD i (JValue.num 0)).asInt)) },
         false, ["Error: number of elements != number of 3D coordinates."]⟩
      ↔ (c3.length ≠ 0 ∧ nums.length ≠ c3.length / 3))
    ∧ ((c3.length = 0 ∨ nums.length = c3.length / 3) →
        read d2r ff (JValue.obj
          [("chemical json", JValue.num 1),
           ("atoms", JValue.obj
             [("elements", JValue.obj [("number", JValue.arr nums)]),
              ("coords", JValue.obj [("3d", JValue.arr c3)])])])
          Molecule.empty
        = ⟨{ Molecule.empty with
              atomicNumbers :=
                (List.range nums.length).map (fun i =>
                  toUChar ((nums.getD i (JValue.num 0)).asInt)),
              positions3d :=
                (List.range nums.length).map (fun i =>
                  ⟨(c3.getD (3 * i + 0) (JValue.num 0)).asDouble,
                   (c3.getD (3 * i + 1) (JValue.num 0)).asDouble,
                   (c3.getD (3 * i + 2) (JValue.num 0)).asDouble⟩) },
           true, []⟩) := by
  have hlen : 0 < nums.length :=
    List.length_pos.mpr (List.isEmpty_eq_false.mp hn)
  have hok : (c3.length = 0 ∨ nums.length = c3.length / 3) →
      read d2r ff (JValue.obj
        [("chemical json", JValue.num 1),
         ("atoms", JValue.obj
           [("elements", JValue.obj [("number", JValue.arr nums)]),
            ("coords", JValue.obj [("3d", JValue.arr c3)])])])
        Molecule.empty
      = ⟨{ Molecule.empty with
            atomicNumbers :=
              (List.range nums.length).map (fun i =>
                toUChar ((nums.getD i (JValue.num 0)).asInt)),
            positions3d :=
              (List.range nums.length).map (fun i =>
                ⟨(c3.getD (3 * i + 0) (JValue.num 0)).asDouble,
                 (c3.getD (3 * i + 1) (JValue.num 0)).asDouble,
                 (c3.getD (3 * i + 2) (JValue.num 0)).asDouble⟩) },
         true, []⟩ := by
    intro hcond
    rcases hcond with h0 | h0 <;>
    · simp [read, readNameInchi, readUnitCellStep, readAtomsStep,
        readCoordsStep, read3dBlock, read2dBlock, readFracBlock,
        readBondsStep, seqR, JValue.getMember, JValue.lookupMember,
        JValue.isEmpty, JValue.isObjectT, JValue.isArrayT, JValue.jSize,
        JValue.jGet, hn, h0, hlen, foldl_addAtom, Molecule.empty,
        List.getD]
      exact foldl_setPosition3d_count _ _ _
        (by simp [Molecule.atomCount]) (by omega)
  by_cases hc : c3.length ≠ 0 ∧ nums.length ≠ c3.length / 3
  · have hfail : read d2r ff (JValue.obj
        [("chemical json", JValue.num 1),
         ("atoms", JValue.obj
           [("elements", JValue.obj [("number", JValue.arr nums)]),
            ("coords", JValue.obj [("3d", JValue.arr c3)])])])
        Molecule.empty
      = ⟨{ Molecule.empty with
            atomicNumbers :=
              (List.range nums.length).map (fun i =>
                toUChar ((nums.getD i (JValue.num 0)).asInt)) },
         false,
         ["Error: number of elements != number of 3D coordinates."]⟩ := by
      simp [read, readNameInchi, readUnitCellStep, readAtomsStep,
        readCoordsStep, read3dBlock, read2dBlock, readFracBlock,
        readBondsStep, seqR, JValue.getMember, JValue.lookupMember,
        JValue.isEmpty, JValue.isObjectT, JValue.isArrayT, JValue.jSize,
        JValue.jGet, hn, hc.1, hc.2, foldl_addAtom, Molecule.empty,
        List.getD]
    refine ⟨⟨fun _ => hc, fun _ => hfail⟩, fun habs => ?_⟩
    rcases habs with h | h
    · exact absurd h hc.1
    · exact absurd h hc.2
  · have hcond : c3.length = 0 ∨ nums.length = c3.length / 3 := by
      by_cases h1 : c3.length = 0
      · exact Or.inl h1
      · right
        by_contra h2
        exact hc ⟨h1, h2⟩
    refine ⟨⟨fun heq => ?_, fun h => absurd h hc⟩, fun _ => hok hcond⟩
    have := congrArg ReadResult.ok ((hok hcond).symm.trans heq)
    simp at this

/-- **C3, witness for the amended theorem**: N = 3 atoms with a `3d`
array of length 8 fail with the cardinality error and no positions
(8/3 = 2 ≠ 3), while the zero-length array decodes successfully. -/
theorem C3_coord_cardinality_witness :
    (read (1 : ℚ) (fun _ v => v) (JValue.obj
        [("chemical json", JValue.num 1),
         ("atoms", JValue.obj
           [("elements", JValue.obj
             [("number", JValue.arr [JValue.num 6, JValue.num 1, JValue.num 1])]),
            ("coords", JValue.obj
              [("3d", JValue.arr
                [JValue.num 0, JValue.num 0, JValue.num 0, JValue.num 1,
                 JValue.num 1, JValue.num 1, JValue.num 2, JValue.num 2])])])])
        Molecule.empty
      = ⟨{ Molecule.empty with atomicNumbers := [6, 1, 1] }, false,
         ["Error: number of elements != number of 3D coordinates."]⟩)
    ∧ (read (1 : ℚ) (fun _ v => v) (JValue.obj
        [("chemical json", JValue.num 1),
         ("atoms", JValue.obj
           [("elements", JValue.obj [("number", JValue.arr [JValue.num 6])]),
            ("coords", JValue.obj [("3d", JValue.arr [])])])])
        Molecule.empty
      = ⟨{ Molecule.empty with
           atomicNumbers := [6],
           positions3d := [⟨0, 0, 0⟩] }, true, []⟩) := by
  constructor
  · exact ((C3_coord_cardinality (1 : ℚ) (fun _ v => v)
      [JValue.num 6, JValue.num 1, JValue.num 1] (by decide)
      [JValue.num 0, JValue.num 0, JValue.num 0, JValue.num 1,
       JValue.num 1, JValue.num 1, JValue.num 2, JValue.num 2]).1.mpr
      (by decide)).trans (by decide)
  · exact ((C3_coord_cardinality (1 : ℚ) (fun _ v => v)
      [JValue.num 6] (by decide) []).2 (by decide)).trans (by decide)

/-- **C5.**  For a document whose `bonds.connections.index` is an array
defining M = ⌊length/2⌋ bond pairs: with no `bonds.order` key decode
succeeds and every added bond carries order 1 (the model's append-bond
default); with `bonds.order` present as an array whose length differs
from M decode fails with the bond-order cardinality error. -/
theorem C5_bond_order_default {α : Type} [LinearOrderedField α]
    [FloorRing α] (d2r : α) (ff : UnitCell α → V3 α → V3 α)
    (nums : List (JValue α)) (hn : nums.isEmpty = false)
    (idx : List (JValue α)) (ol : List (JValue α))
    (hlen : idx.length / 2 ≠ ol.length) :
    (read d2r ff (JValue.obj
        [("chemical json", JValue.num 1),
         ("atoms", JValue.obj
           [("elements", JValue.obj [("number", JValue.arr nums)])]),
         ("bonds", JValue.obj
           [("connections", JValue.obj [("index", JValue.arr idx)])])])
        Molecule.empty
      = ⟨{ Molecule.empty with
            atomicNumbers :=
              (List.range nums.length).map (fun i =>
                toUChar ((nums.getD i (JValue.num 0)).asInt)),
            bonds :=
              (List.range (idx.length / 2)).map (fun i =>
                ⟨toIndex ((idx.getD (2 * i + 0) (JValue.num 0)).asInt),
                 toIndex ((idx.getD (2 * i + 1) (JValue.num 0)).asInt),
                 1⟩) },
         true, []⟩)
    ∧ (∀ b ∈ (read d2r ff (JValue.obj
        [("chemical json", JValue.num 1),
         ("atoms", JValue.obj
           [("elements", JValue.obj [("number", JValue.arr nums)])]),
         ("bonds", JValue.obj
           [("connections", JValue.obj [("index", JValue.arr idx)])])])
        Molecule.empty).mol.bonds, b.order = 1)
    ∧ (read d2r ff (JValue.obj
        [("chemical json", JValue.num 1),
         ("atoms", JValue.obj
           [("elements", JValue.obj [("number", JValue.arr nums)])]),
         ("bonds", JValue.obj
           [("connections", JValue.obj [("index", JValue.arr idx)]),
            ("order", JValue.arr ol)])])
        Molecule.empty
      = ⟨{ Molecule.empty with
            atomicNumbers :=
              (List.range nums.length).map (fun i =>
                toUChar ((nums.getD i (JValue.num 0)).asInt)),
            bonds :=
              (List.range (idx.length / 2)).map (fun i =>
                ⟨toIndex ((idx.getD (2 * i + 0) (JValue.num 0)).asInt),
                 toIndex ((idx.getD (2 * i + 1) (JValue.num 0)).asInt),
                 1⟩) },
         false, ["Error: number of bonds != number of bond orders."]⟩) := by
  have ha : read d2r ff (JValue.obj
        [("chemical json", JValue.num 1),
         ("atoms", JValue.obj
           [("elements", JValue.obj [("number", JValue.arr nums)])]),
         ("bonds", JValue.obj
           [("connections", JValue.obj [("index", JValue.arr idx)])])])
        Molecule.empty
      = ⟨{ Molecule.empty with
            atomicNumbers :=
              (List.range nums.length).map (fun i =>
                toUChar ((nums.getD i (JValue.num 0)).asInt)),
            bonds :=
              (List.range (idx.length / 2)).map (fun i =>
                ⟨toIndex ((idx.getD (2 * i + 0) (JValue.num 0)).asInt),
                 toIndex ((idx.getD (2 * i + 1) (JValue.num 0)).asInt),
                 1⟩) },
         true, []⟩ := by
    simp [read, readNameInchi, readUnitCellStep, readAtomsStep,
      readCoordsStep, readBondsStep, readBondIdxBlock, readOrderBlock,
      seqR, JValue.getMember, JValue.lookupMember, JValue.isEmpty,
      JValue.isObjectT, JValue.isArrayT, JValue.jSize, JValue.jGet,
      hn, foldl_addAtom, foldl_addBond, Molecule.empty, List.getD]
  refine ⟨ha, ?_, ?_⟩
  · rw [ha]
    intro b hb
    simp only [List.mem_map, List.mem_range] at hb
    obtain ⟨i, _, rfl⟩ := hb
    rfl
  · simp [read, readNameInchi, readUnitCellStep, readAtomsStep,
      readCoordsStep, readBondsStep, readBondIdxBlock, readOrderBlock,
      seqR, JValue.getMember, JValue.lookupMember, JValue.isEmpty,
      JValue.isObjectT, JValue.isArrayT, JValue.jSize, JValue.jGet,
      hn, hlen, foldl_addAtom, foldl_addBond, Molecule.empty, List.getD]

/-- **C5, witness**: two pairs `[0,1,1,2]` with no order key decode to
two bonds of order 1; the same pairs with `order: [1]` (length 1 ≠ 2)
fail. -/
theorem C5_bond_order_default_witness :
    (read (1 : ℚ) (fun _ v => v) (JValue.obj
        [("chemical json", JValue.num 1),
         ("atoms", JValue.obj
           [("elements", JValue.obj
             [("number", JValue.arr [JValue.num 6, JValue.num 1, JValue.num 1])])]),
         ("bonds", JValue.obj
           [("connections", JValue.obj
             [("index", JValue.arr
               [JValue.num 0, JValue.num 1, JValue.num 1, JValue.num 2])])])])
        Molecule.empty
      = ⟨{ Molecule.empty with
            atomicNumbers := [6, 1, 1],
            bonds := [⟨0, 1, 1⟩, ⟨1, 2, 1⟩] },
         true, []⟩)
    ∧ (read (1 : ℚ) (fun _ v => v) (JValue.obj
        [("chemical json", JValue.num 1),
         ("atoms", JValue.obj
           [("elements", JValue.obj
             [("number", JValue.arr [JValue.num 6, JValue.num 1, JValue.num 1])])]),
         ("bonds", JValue.obj
           [("connections", JValue.obj
             [("index", JValue.arr
               [JValue.num 0, JValue.num 1, JValue.num 1, JValue.num 2])]),
            ("order", JValue.arr [JValue.num 1])])])
        Molecule.empty).ok = false := by
  refine ⟨((C5_bond_order_default (1 : ℚ) (fun _ v => v)
    [JValue.num 6, JValue.num 1, JValue.num 1] (by decide)
    [JValue.num 0, JValue.num 1, JValue.num 1, JValue.num 2]
    [JValue.num 1] (by decide)).1).trans (by decide), ?_⟩
  rw [(C5_bond_order_default (1 : ℚ) (fun _ v => v)
    [JValue.num 6, JValue.num 1, JValue.num 1] (by decide)
    [JValue.num 0, JValue.num 1, JValue.num 1, JValue.num 2]
    [JValue.num 1] (by decide)).2.2]

/-- **C9.**  The decoder never validates bond atom indices against the
atom count: for an arbitrary integer array `bonds.connections.index`
(entries may be ≥ N or negative — the statement places no constraint
relating `idx` to `nums`), decode succeeds with no message, and each
index is passed through the `int → Index` cast (`toIndex`, i.e. reduction
mod 2⁶⁴, sending negatives to huge values) straight into the model's
atom accessor and bond construction. -/
theorem C9_no_index_validation {α : Type} [LinearOrderedField α]
    [FloorRing α] (d2r : α) (ff : UnitCell α → V3 α → V3 α)
    (nums : List (JValue α)) (hn : nums.isEmpty = false) (idx : List ℤ) :
    read d2r ff (JValue.obj
        [("chemical json", JValue.num 1),
         ("atoms", JValue.obj
           [("elements", JValue.obj [("number", JValue.arr nums)])]),
         ("bonds", JValue.obj
           [("connections", JValue.obj
             [("index", JValue.arr (idx.map (jIntNum (α := α))))])])])
        Molecule.empty
      = ⟨{ Molecule.empty with
            atomicNumbers :=
              (List.range nums.length).map (fun i =>
                toUChar ((nums.getD i (JValue.num 0)).asInt)),
            bonds :=
              (List.range (idx.length / 2)).map (fun i =>
                ⟨toIndex (idx.getD (2 * i + 0) 0),
                 toIndex (idx.getD (2 * i + 1) 0), 1⟩) },
         true, []⟩ := by
  have ha : read d2r ff (JValue.obj
        [("chemical json", JValue.num 1),
         ("atoms", JValue.obj
           [("elements", JValue.obj [("number", JValue.arr nums)])]),
         ("bonds", JValue.obj
           [("connections", JValue.obj
             [("index", JValue.arr (idx.map (jIntNum (α := α))))])])])
        Molecule.empty
      = ⟨{ Molecule.empty with
            atomicNumbers :=
              (List.range nums.length).map (fun i =>
                toUChar ((nums.getD i (JValue.num 0)).asInt)),
            bonds :=
              (List.range ((idx.map (jIntNum (α := α))).length / 2)).map
                (fun i =>
                  ⟨toIndex (((idx.map (jIntNum (α := α))).getD (2 * i + 0)
                      (JValue.num 0)).asInt),
                   toIndex (((idx.map (jIntNum (α := α))).getD (2 * i + 1)
                      (JValue.num 0)).asInt), 1⟩) },
         true, []⟩ := by
    simp [read, readNameInchi, readUnitCellStep, readAtomsStep,
      readCoordsStep, readBondsStep, readBondIdxBlock, readOrderBlock,
      seqR, JValue.getMember, JValue.lookupMember, JValue.isEmpty,
      JValue.isObjectT, JValue.isArrayT, JValue.jSize, JValue.jGet,
      hn, foldl_addAtom, foldl_addBond, Molecule.empty, List.getD]
  rw [ha]
  have hmap : (List.range ((idx.map (jIntNum (α := α))).length / 2)).map
      (fun i =>
        (⟨toIndex (((idx.map (jIntNum (α := α))).getD (2 * i + 0)
            (JValue.num 0)).asInt),
          toIndex (((idx.map (jIntNum (α := α))).getD (2 * i + 1)
            (JValue.num 0)).asInt), 1⟩ : Bond))
      = (List.range (idx.length / 2)).map (fun i =>
          (⟨toIndex (idx.getD (2 * i + 0) 0),
            toIndex (idx.getD (2 * i + 1) 0), 1⟩ : Bond)) := by
    rw [List.length_map]
    apply List.map_congr_left
    intro i hi
    simp only [List.mem_range] at hi
    rw [asInt_map_intCast idx _ (by omega), asInt_map_intCast idx _ (by omega)]
  rw [hmap]

/-- **C9, witness**: with a single atom (N = 1), the pair `[-1, 7]` — a
negative index and one far beyond the atom count — decodes successfully
into the bond `(2⁶⁴ - 1, 7)` with no message recorded. -/
theorem C9_no_index_validation_witness :
    read (1 : ℚ) (fun _ v => v) (JValue.obj
        [("chemical json", JValue.num 1),
         ("atoms", JValue.obj
           [("elements", JValue.obj [("number", JValue.arr [JValue.num 6])])]),
         ("bonds", JValue.obj
           [("connections", JValue.obj
             [("index", JValue.arr
               ([-1, 7].map (jIntNum (α := ℚ))))])])])
        Molecule.empty
      = ⟨{ Molecule.empty with
            atomicNumbers := [6],
            bonds := [⟨18446744073709551615, 7, 1⟩] },
         true, []⟩ :=
  (C9_no_index_validation (1 : ℚ) (fun _ v => v) [JValue.num 6]
    (by decide) [-1, 7]).trans (by decide)

/-- **C6, counterexample.**  The claim says a document whose
`bonds.connections.index` is present but not an array always decodes with
a warning and success.  But when the same `bonds` object also carries a
non-empty `order` array, the warning path leaves the bond count at zero,
and the subsequent order-length check `0 ≠ 1` is fatal: decode returns
failure (with the warning and the cardinality error both recorded). -/
theorem C6_counterexample :
    read (1 : ℚ) (fun _ v => v) (JValue.obj
        [("chemical json", JValue.num 1),
         ("atoms", JValue.obj
           [("elements", JValue.obj [("number", JValue.arr [JValue.num 6])])]),
         ("bonds", JValue.obj
           [("connections", JValue.obj [("index", JValue.num 5)]),
            ("order", JValue.arr [JValue.num 1])])])
        Molecule.empty
      = ⟨{ Molecule.empty with atomicNumbers := [6] }, false,
         ["Warning, no bonding information found.",
          "Error: number of bonds != number of bond orders."]⟩ := by
  decide

/-- **C6 (amended).**  For a document with a non-empty `bonds` object
containing `bonds.connections` with an `index` member that is not an
array, decode records the soft warning, continues, and adds zero bonds;
it returns success provided `bonds.order` is absent, not an array, or an
empty array (a non-empty `bonds.order` array instead fails the
order-length check against the zero bond count, as the counterexample
shows). -/
theorem C6_soft_bond_warning {α : Type} [LinearOrderedField α]
    [FloorRing α] (d2r : α) (ff : UnitCell α → V3 α → V3 α)
    (nums : List (JValue α)) (hn : nums.isEmpty = false)
    (idxv : JValue α) (hidx : idxv.isArrayT = false)
    (ov : JValue α) (hov : ov.isArrayT = true → ov.jSize = 0) :
    read d2r ff (JValue.obj
        [("chemical json", JValue.num 1),
         ("atoms", JValue.obj
           [("elements", JValue.obj [("number", JValue.arr nums)])]),
         ("bonds", JValue.obj
           [("connections", JValue.obj [("index", idxv)]),
            ("order", ov)])])
        Molecule.empty
      = ⟨{ Molecule.empty with
            atomicNumbers :=
              (List.range nums.length).map (fun i =>
                toUChar ((nums.getD i (JValue.num 0)).asInt)) },
         true, ["Warning, no bonding information found."]⟩ := by
  have hblk : ∀ m : Molecule α, readBondIdxBlock idxv m
      = (m, 0, ["Warning, no bonding information found."]) := by
    intro m
    rw [readBondIdxBlock, if_neg (by simp [hidx])]
  have hord : ∀ m : Molecule α,
      readOrderBlock ov 0 ["Warning, no bonding information found."] m
      = ⟨m, true, ["Warning, no bonding information found."]⟩ := by
    intro m
    cases harr : ov.isArrayT with
    | false => rw [readOrderBlock, if_neg (by simp [harr])]
    | true =>
        rw [readOrderBlock, if_pos harr, if_neg (by simp [hov harr])]
        simp
  have hb : ∀ m : Molecule α, readBondsStep (JValue.obj
        [("chemical json", JValue.num 1),
         ("atoms", JValue.obj
           [("elements", JValue.obj [("number", JValue.arr nums)])]),
         ("bonds", JValue.obj
           [("connections", JValue.obj [("index", idxv)]),
            ("order", ov)])]) m
      = ⟨m, true, ["Warning, no bonding information found."]⟩ := by
    intro m
    simp [readBondsStep, JValue.getMember, JValue.lookupMember,
      JValue.isEmpty, hblk, hord]
  simp [read, readNameInchi, readUnitCellStep, readAtomsStep,
    readCoordsStep, seqR, JValue.getMember, JValue.lookupMember,
    JValue.isEmpty, JValue.isObjectT, JValue.isArrayT, JValue.jSize,
    JValue.jGet, hn, hb, foldl_addAtom, Molecule.empty, List.getD]

/-- **C6, witness for the amended theorem**: `index: 5` (a number, not an
array) with no usable `order` value decodes successfully with the warning
recorded and zero bonds. -/
theorem C6_soft_bond_warning_witness :
    read (1 : ℚ) (fun _ v => v) (JValue.obj
        [("chemical json", JValue.num 1),
         ("atoms", JValue.obj
           [("elements", JValue.obj [("number", JValue.arr [JValue.num 6])])]),
         ("bonds", JValue.obj
           [("connections", JValue.obj [("index", JValue.num 5)]),
            ("order", JValue.null)])])
        Molecule.empty
      = ⟨{ Molecule.empty with atomicNumbers := [6] }, true,
         ["Warning, no bonding information found."]⟩ :=
  (C6_soft_bond_warning (1 : ℚ) (fun _ v => v) [JValue.num 6] (by decide)
    (JValue.num 5) (by decide) JValue.null (by decide)).trans (by decide)

/-- **C7, counterexample.**  The claim quantifies over every model in
which all atoms have 3D positions.  The empty molecule satisfies that
vacuously (its position array length equals its atom count, 0 = 0), yet
the encoder skips the whole `atoms` block for an empty molecule, so the
emitted document contains neither `atoms.coords.3d fractional` nor
`atoms.coords.3d` — not "exactly one" of them. -/
theorem C7_counterexample :
    (Molecule.empty (α := ℚ)).positions3d.length
        = (Molecule.empty (α := ℚ)).atomCount
    ∧ objHasKey (((write (1 : ℚ) (fun _ v => v)
          Molecule.empty).getMember "atoms").getMember "coords")
        "3d fractional" = false
    ∧ objHasKey (((write (1 : ℚ) (fun _ v => v)
          Molecule.empty).getMember "atoms").getMember "coords")
        "3d" = false := by
  refine ⟨rfl, ?_, ?_⟩ <;> rfl

/-- **C7 (amended).**  For every model, the emitted document never
contains both `atoms.coords.3d fractional` and `atoms.coords.3d` (first
conjunct); and for every model with at least one atom in which all atoms
have 3D positions, exactly one of the two is emitted: `3d fractional`
precisely when a unit cell is attached, plain `3d` precisely when none
is (second conjunct). -/
theorem C7_coordinate_exclusivity {α : Type} [LinearOrderedField α]
    [FloorRing α] (r2d : α) (tf : UnitCell α → V3 α → V3 α)
    (m : Molecule α) :
    (¬(objHasKey (((write r2d tf m).getMember "atoms").getMember "coords")
          "3d fractional" = true
        ∧ objHasKey (((write r2d tf m).getMember "atoms").getMember
            "coords") "3d" = true))
    ∧ (m.atomCount ≠ 0 → m.positions3d.length = m.atomCount →
        (objHasKey (((write r2d tf m).getMember "atoms").getMember
            "coords") "3d fractional" = m.unitCell.isSome
          ∧ objHasKey (((write r2d tf m).getMember "atoms").getMember
              "coords") "3d" = m.unitCell.isNone)) := by
  rw [write_getMember_atoms]
  by_cases hA : m.atomCount = 0
  · rw [if_neg (by simp [hA])]
    constructor
    · intro h
      simp [objHasKey, JValue.getMember] at h
    · intro h
      exact absurd hA h
  · rw [if_pos hA]
    by_cases hp3 : m.positions3d.length = m.atomCount
    · rcases huc : m.unitCell with _ | uc
      · constructor
        · intro h
          rcases h with ⟨h1, _⟩
          rw [show (JValue.obj ([("elements", JValue.obj
              [("number", JValue.arr (m.atomicNumbers.map jNatNum))])]
              ++ writeCoords tf m)).getMember "coords"
              = JValue.obj ([("3d", JValue.arr (flat3 m.positions3d))]
                  ++ (if m.positions2d.length = m.atomCount then
                    [("2d", JValue.arr (flat2 m.positions2d))] else [])) by
            simp [JValue.getMember, JValue.lookupMember, writeCoords,
              hp3, huc]
            try (split <;> simp [JValue.lookupMember])] at h1
          revert h1
          simp [objHasKey]
          try (split <;> simp)
        · intro _ _
          rw [show (JValue.obj ([("elements", JValue.obj
              [("number", JValue.arr (m.atomicNumbers.map jNatNum))])]
              ++ writeCoords tf m)).getMember "coords"
              = JValue.obj ([("3d", JValue.arr (flat3 m.positions3d))]
                  ++ (if m.positions2d.length = m.atomCount then
                    [("2d", JValue.arr (flat2 m.positions2d))] else [])) by
            simp [JValue.getMember, JValue.lookupMember, writeCoords,
              hp3, huc]
            try (split <;> simp [JValue.lookupMember])]
          constructor
          · simp [objHasKey, huc]
            try (split <;> simp)
          · simp [objHasKey, huc]
      · constructor
        · intro h
          rcases h with ⟨_, h2⟩
          rw [show (JValue.obj ([("elements", JValue.obj
              [("number", JValue.arr (m.atomicNumbers.map jNatNum))])]
              ++ writeCoords tf m)).getMember "coords"
              = JValue.obj ([("3d fractional",
                    JValue.arr (flat3 (m.positions3d.map (tf uc))))]
                  ++ (if m.positions2d.length = m.atomCount then
                    [("2d", JValue.arr (flat2 m.positions2d))] else [])) by
            simp [JValue.getMember, JValue.lookupMember, writeCoords,
              hp3, huc]
            try (split <;> simp [JValue.lookupMember])] at h2
          revert h2
          simp [objHasKey]
          try (split <;> simp)
        · intro _ _
          rw [show (JValue.obj ([("elements", JValue.obj
              [("number", JValue.arr (m.atomicNumbers.map jNatNum))])]
              ++ writeCoords tf m)).getMember "coords"
              = JValue.obj ([("3d fractional",
                    JValue.arr (flat3 (m.positions3d.map (tf uc))))]
                  ++ (if m.positions2d.length = m.atomCount then
                    [("2d", JValue.arr (flat2 m.positions2d))] else [])) by
            simp [JValue.getMember, JValue.lookupMember, writeCoords,
              hp3, huc]
            try (split <;> simp [JValue.lookupMember])]
          constructor
          · simp [objHasKey, huc]
          · simp [objHasKey, huc]
            try (split <;> simp)
    · constructor
      · intro h
        rcases h with ⟨h1, _⟩
        rw [show (JValue.obj ([("elements", JValue.obj
            [("number", JValue.arr (m.atomicNumbers.map jNatNum))])]
            ++ writeCoords tf m)).getMember "coords"
            = (if m.positions2d.length = m.atomCount then
                JValue.obj [("2d", JValue.arr (flat2 m.positions2d))]
              else JValue.null) by
          simp [JValue.getMember, JValue.lookupMember, writeCoords, hp3]
          try (split <;> simp [JValue.lookupMember])] at h1
        revert h1
        split <;> simp [objHasKey, JValue.getMember]
      · intro _ hp3'
        exact absurd hp3' hp3

/-- **C7, witness for the amended theorem**: a one-atom molecule with a
position and no unit cell emits `3d` and not `3d fractional`; the same
molecule with a unit cell emits `3d fractional` and not `3d`. -/
theorem C7_coordinate_exclusivity_witness :
    (objHasKey (((write (1 : ℚ) (fun _ v => v)
          ⟨[6], [⟨0, 0, 0⟩], [], [], none, none, []⟩).getMember
            "atoms").getMember "coords") "3d" = true
      ∧ objHasKey (((write (1 : ℚ) (fun _ v => v)
          ⟨[6], [⟨0, 0, 0⟩], [], [], none, none, []⟩).getMember
            "atoms").getMember "coords") "3d fractional" = false)
    ∧ (objHasKey (((write (1 : ℚ) (fun _ v => v)
          ⟨[6], [⟨0, 0, 0⟩], [], [],
            some ⟨1, 1, 1, 1, 1, 1⟩, none, []⟩).getMember
            "atoms").getMember "coords") "3d fractional" = true
      ∧ objHasKey (((write (1 : ℚ) (fun _ v => v)
          ⟨[6], [⟨0, 0, 0⟩], [], [],
            some ⟨1, 1, 1, 1, 1, 1⟩, none, []⟩).getMember
            "atoms").getMember "coords") "3d" = false) := by
  constructor
  · have h := (C7_coordinate_exclusivity (1 : ℚ) (fun _ v => v)
      ⟨[6], [⟨0, 0, 0⟩], [], [], none, none, []⟩).2
      (by decide) (by decide)
    refine ⟨?_, ?_⟩
    · rw [h.2]; rfl
    · rw [h.1]; rfl
  · have h := (C7_coordinate_exclusivity (1 : ℚ) (fun _ v => v)
      ⟨[6], [⟨0, 0, 0⟩], [], [], some ⟨1, 1, 1, 1, 1, 1⟩, none, []⟩).2
      (by decide) (by decide)
    refine ⟨?_, ?_⟩
    · rw [h.1]; rfl
    · rw [h.2]; rfl

/-- **C8.**  With the spec's conversion constants (`DEG_TO_RAD = π/180`,
`RAD_TO_DEG = 180/π`): decoding a well-formed `unit cell` object stores
each angle as the document value multiplied by π/180 (first conjunct);
encoding emits each model angle multiplied by 180/π (second conjunct);
and the factors compose exactly: 90 degrees becomes π/2 radians and π/2
radians becomes 90 degrees (third conjunct, the claim's instance, exact
over ℝ and hence within any floating tolerance). -/
theorem C8_degree_radian_conversion :
    (∀ (root : JValue ℝ) (m : Molecule ℝ)
       (ucm : List (String × JValue ℝ)),
      root.getMember "unit cell" = JValue.obj ucm →
      (JValue.lookupMember ucm "a").isNumericT = true →
      (JValue.lookupMember ucm "b").isNumericT = true →
      (JValue.lookupMember ucm "c").isNumericT = true →
      (JValue.lookupMember ucm "alpha").isNumericT = true →
      (JValue.lookupMember ucm "beta").isNumericT = true →
      (JValue.lookupMember ucm "gamma").isNumericT = true →
      readUnitCellStep (Real.pi / 180) root m
        = ⟨m.setUnitCell
            ⟨(JValue.lookupMember ucm "a").asDouble,
             (JValue.lookupMember ucm "b").asDouble,
             (JValue.lookupMember ucm "c").asDouble,
             (JValue.lookupMember ucm "alpha").asDouble * (Real.pi / 180),
             (JValue.lookupMember ucm "beta").asDouble * (Real.pi / 180),
             (JValue.lookupMember ucm "gamma").asDouble * (Real.pi / 180)⟩,
           true, []⟩)
    ∧ (∀ (tf : UnitCell ℝ → V3 ℝ → V3 ℝ) (m : Molecule ℝ)
         (cell : UnitCell ℝ),
        m.unitCell = some cell →
        (write (180 / Real.pi) tf m).getMember "unit cell"
          = JValue.obj
              [("a", JValue.num cell.a),
               ("b", JValue.num cell.b),
               ("c", JValue.num cell.c),
               ("alpha", JValue.num (cell.alpha * (180 / Real.pi))),
               ("beta", JValue.num (cell.beta * (180 / Real.pi))),
               ("gamma", JValue.num (cell.gamma * (180 / Real.pi)))])
    ∧ ((90 : ℝ) * (Real.pi / 180) = Real.pi / 2
        ∧ (Real.pi / 2) * (180 / Real.pi) = 90) := by
  refine ⟨?_, ?_, ?_, ?_⟩
  · intro root m ucm hroot h1 h2 h3 h4 h5 h6
    rw [readUnitCellStep, hroot]
    rw [if_pos (show (JValue.obj ucm).isObjectT = true from rfl)]
    rw [if_neg (by simp [JValue.getMember, h1, h2, h3, h4, h5, h6])]
    rfl
  · intro tf m cell hm
    rw [write_getMember_unitcell, hm]
  · ring
  · field_simp
    ring

/-- **C8, witness**: a unit cell with all angles 90.0 degrees decodes to
angles π/2 radians, and re-encoding that model emits 90.0 degrees. -/
theorem C8_degree_radian_conversion_witness :
    readUnitCellStep (Real.pi / 180) (JValue.obj
        [("unit cell", JValue.obj
          [("a", JValue.num 1), ("b", JValue.num 1), ("c", JValue.num 1),
           ("alpha", JValue.num 90), ("beta", JValue.num 90),
           ("gamma", JValue.num 90)])])
        Molecule.empty
      = ⟨Molecule.empty.setUnitCell
          ⟨1, 1, 1, Real.pi / 2, Real.pi / 2, Real.pi / 2⟩, true, []⟩
    ∧ (write (180 / Real.pi) (fun _ v => v)
        (Molecule.empty.setUnitCell
          ⟨1, 1, 1, Real.pi / 2, Real.pi / 2, Real.pi / 2⟩)).getMember
        "unit cell"
      = JValue.obj
          [("a", JValue.num 1), ("b", JValue.num 1), ("c", JValue.num 1),
           ("alpha", JValue.num 90), ("beta", JValue.num 90),
           ("gamma", JValue.num 90)] := by
  have h90 : (90 : ℝ) * (Real.pi / 180) = Real.pi / 2 :=
    C8_degree_radian_conversion.2.2.1
  have h90' : (Real.pi / 2) * (180 / Real.pi) = 90 :=
    C8_degree_radian_conversion.2.2.2
  constructor
  · have h := C8_degree_radian_conversion.1 (JValue.obj
        [("unit cell", JValue.obj
          [("a", JValue.num 1), ("b", JValue.num 1), ("c", JValue.num 1),
           ("alpha", JValue.num 90), ("beta", JValue.num 90),
           ("gamma", JValue.num 90)])])
      Molecule.empty
      [("a", JValue.num 1), ("b", JValue.num 1), ("c", JValue.num 1),
       ("alpha", JValue.num 90), ("beta", JValue.num 90),
       ("gamma", JValue.num 90)]
      rfl rfl rfl rfl rfl rfl rfl
    rw [h]
    simp [JValue.lookupMember, JValue.asDouble, h90]
  · have h := C8_degree_radian_conversion.2.1 (fun _ v => v)
      (Molecule.empty.setUnitCell
        ⟨1, 1, 1, Real.pi / 2, Real.pi / 2, Real.pi / 2⟩)
      ⟨1, 1, 1, Real.pi / 2, Real.pi / 2, Real.pi / 2⟩ rfl
    rw [h]
    simp [h90']

/-- **C1 (counterexample).**  The round-trip claim fails as stated: the
document below decodes successfully (bond index `-1` is cast through
`int` to the 64-bit `Index`, becoming 2⁶⁴−1, with no validation), but
encoding truncates the stored index through jsoncpp's 32-bit
`Value::UInt`, so decoding the written document yields a different bond
(2³²−1 instead of 2⁶⁴−1): the bond lists disagree. -/
theorem C1_counterexample :
    (read (1 : ℚ) (fun _ v => v) (JValue.obj
        [("chemical json", JValue.num 1),
         ("atoms", JValue.obj
           [("elements", JValue.obj
             [("number", JValue.arr [JValue.num 6, JValue.num 6])])]),
         ("bonds", JValue.obj
           [("connections", JValue.obj
             [("index", JValue.arr [JValue.num (-1), JValue.num 0])])])])
        Molecule.empty).ok = true
    ∧ (read (1 : ℚ) (fun _ v => v)
        (write (1 : ℚ) (fun _ v => v)
          (read (1 : ℚ) (fun _ v => v) (JValue.obj
            [("chemical json", JValue.num 1),
             ("atoms", JValue.obj
               [("elements", JValue.obj
                 [("number", JValue.arr [JValue.num 6, JValue.num 6])])]),
             ("bonds", JValue.obj
               [("connections", JValue.obj
                 [("index",
                   JValue.arr [JValue.num (-1), JValue.num 0])])])])
            Molecule.empty).mol)
        Molecule.empty).mol.bonds
      ≠ (read (1 : ℚ) (fun _ v => v) (JValue.obj
          [("chemical json", JValue.num 1),
           ("atoms", JValue.obj
             [("elements", JValue.obj
               [("number", JValue.arr [JValue.num 6, JValue.num 6])])]),
           ("bonds", JValue.obj
             [("connections", JValue.obj
               [("index", JValue.arr [JValue.num (-1), JValue.num 0])])])])
          Molecule.empty).mol.bonds := by
  decide

/-- **C1 (amended).**  Round-trip: for every document that decodes
successfully into a model M *whose bond atom indices fit in 32 bits*
(jsoncpp's `Value::UInt`, through which the encoder casts the 64-bit
indices), encoding M produces a document whose decode succeeds and
yields a model equal to M in atom count, 3D and 2D atom positions, bonds
with their orders, unit cell, and name/inchi metadata.  The conversion
constants and the fractional-coordinate transformer are the spec's:
`RAD_TO_DEG * DEG_TO_RAD = 1` and the two directions of the Coordinate
Transformer are mutually inverse. -/
theorem C1_round_trip {α : Type} [LinearOrderedField α] [FloorRing α]
    (d2r r2d : α) (hdr : r2d * d2r = 1)
    (tf ff : UnitCell α → V3 α → V3 α)
    (hinv : ∀ c v, ff c (tf c v) = v)
    (D : JValue α) (M : Molecule α) (errs : List String)
    (hdec : read d2r ff D Molecule.empty = ⟨M, true, errs⟩)
    (hidx : ∀ b ∈ M.bonds, b.atom1 < 2 ^ 32 ∧ b.atom2 < 2 ^ 32) :
    (read d2r ff (write r2d tf M) Molecule.empty).ok = true
    ∧ (read d2r ff (write r2d tf M) Molecule.empty).mol.atomCount
        = M.atomCount
    ∧ (read d2r ff (write r2d tf M) Molecule.empty).mol.positions3d
        = M.positions3d
    ∧ (read d2r ff (write r2d tf M) Molecule.empty).mol.positions2d
        = M.positions2d
    ∧ (read d2r ff (write r2d tf M) Molecule.empty).mol.bonds = M.bonds
    ∧ (read d2r ff (write r2d tf M) Molecule.empty).mol.unitCell
        = M.unitCell
    ∧ (read d2r ff (write r2d tf M) Molecule.empty).mol.data "name"
        = M.data "name"
    ∧ (read d2r ff (write r2d tf M) Molecule.empty).mol.data "inchi"
        = M.data "inchi" :=
  read_write d2r r2d tf ff hdr hinv M
    (read_canonical d2r ff D M errs hdec) hidx

/-- Witness for C1: a two-atom molecule with 3D coordinates, one bond of
order 2 and a name, decoded from a concrete document, survives the round
trip. -/
theorem C1_round_trip_witness :
    (read (1 : ℚ) (fun _ v => v) (JValue.obj
        [("chemical json", JValue.num 0),
         ("name", JValue.str "ethane"),
         ("atoms", JValue.obj
           [("elements", JValue.obj
             [("number", JValue.arr [JValue.num 6, JValue.num 8])]),
            ("coords", JValue.obj
              [("3d", JValue.arr
                [JValue.num 1, JValue.num 2, JValue.num 3,
                 JValue.num 4, JValue.num 5, JValue.num 6])])]),
         ("bonds", JValue.obj
           [("connections", JValue.obj
             [("index", JValue.arr [JValue.num 0, JValue.num 1])]),
            ("order", JValue.arr [JValue.num 2])])])
        Molecule.empty
      = ⟨{ Molecule.empty with
           atomicNumbers := [6, 8],
           positions3d := [⟨1, 2, 3⟩, ⟨4, 5, 6⟩],
           bonds := [⟨0, 1, 2⟩],
           dataMap := [("name", "ethane")] }, true, []⟩)
    ∧ ((read (1 : ℚ) (fun _ v => v)
        (write (1 : ℚ) (fun _ v => v)
          ({ Molecule.empty with
             atomicNumbers := [6, 8],
             positions3d := [⟨1, 2, 3⟩, ⟨4, 5, 6⟩],
             bonds := [⟨0, 1, 2⟩],
             dataMap := [("name", "ethane")] } : Molecule ℚ))
        Molecule.empty).ok = true
      ∧ (read (1 : ℚ) (fun _ v => v)
          (write (1 : ℚ) (fun _ v => v)
            ({ Molecule.empty with
               atomicNumbers := [6, 8],
               positions3d := [⟨1, 2, 3⟩, ⟨4, 5, 6⟩],
               bonds := [⟨0, 1, 2⟩],
               dataMap := [("name", "ethane")] } : Molecule ℚ))
          Molecule.empty).mol.atomCount
        = ({ Molecule.empty with
             atomicNumbers := [6, 8],
             positions3d := [⟨1, 2, 3⟩, ⟨4, 5, 6⟩],
             bonds := [⟨0, 1, 2⟩],
             dataMap := [("name", "ethane")] } : Molecule ℚ).atomCount
      ∧ (read (1 : ℚ) (fun _ v => v)
          (write (1 : ℚ) (fun _ v => v)
            ({ Molecule.empty with
               atomicNumbers := [6, 8],
               positions3d := [⟨1, 2, 3⟩, ⟨4, 5, 6⟩],
               bonds := [⟨0, 1, 2⟩],
               dataMap := [("name", "ethane")] } : Molecule ℚ))
          Molecule.empty).mol.positions3d
        = ({ Molecule.empty with
             atomicNumbers := [6, 8],
             positions3d := [⟨1, 2, 3⟩, ⟨4, 5, 6⟩],
             bonds := [⟨0, 1, 2⟩],
             dataMap := [("name", "ethane")] } : Molecule ℚ).positions3d
      ∧ (read (1 : ℚ) (fun _ v => v)
          (write (1 : ℚ) (fun _ v => v)
            ({ Molecule.empty with
               atomicNumbers := [6, 8],
               positions3d := [⟨1, 2, 3⟩, ⟨4, 5, 6⟩],
               bonds := [⟨0, 1, 2⟩],
               dataMap := [("name", "ethane")] } : Molecule ℚ))
          Molecule.empty).mol.positions2d
        = ({ Molecule.empty with
             atomicNumbers := [6, 8],
             positions3d := [⟨1, 2, 3⟩, ⟨4, 5, 6⟩],
             bonds := [⟨0, 1, 2⟩],
             dataMap := [("name", "ethane")] } : Molecule ℚ).positions2d
      ∧ (read (1 : ℚ) (fun _ v => v)
          (write (1 : ℚ) (fun _ v => v)
            ({ Molecule.empty with
               atomicNumbers := [6, 8],
               positions3d := [⟨1, 2, 3⟩, ⟨4, 5, 6⟩],
               bonds := [⟨0, 1, 2⟩],
               dataMap := [("name", "ethane")] } : Molecule ℚ))
          Molecule.empty).mol.bonds
        = ({ Molecule.empty with
             atomicNumbers := [6, 8],
             positions3d := [⟨1, 2, 3⟩, ⟨4, 5, 6⟩],
             bonds := [⟨0, 1, 2⟩],
             dataMap := [("name", "ethane")] } : Molecule ℚ).bonds
      ∧ (read (1 : ℚ) (fun _ v => v)
          (write (1 : ℚ) (fun _ v => v)
            ({ Molecule.empty with
               atomicNumbers := [6, 8],
               positions3d := [⟨1, 2, 3⟩, ⟨4, 5, 6⟩],
               bonds := [⟨0, 1, 2⟩],
               dataMap := [("name", "ethane")] } : Molecule ℚ))
          Molecule.empty).mol.unitCell
        = ({ Molecule.empty with
             atomicNumbers := [6, 8],
             positions3d := [⟨1, 2, 3⟩, ⟨4, 5, 6⟩],
             bonds := [⟨0, 1, 2⟩],
             dataMap := [("name", "ethane")] } : Molecule ℚ).unitCell
      ∧ (read (1 : ℚ) (fun _ v => v)
          (write (1 : ℚ) (fun _ v => v)
            ({ Molecule.empty with
               atomicNumbers := [6, 8],
               positions3d := [⟨1, 2, 3⟩, ⟨4, 5, 6⟩],
               bonds := [⟨0, 1, 2⟩],
               dataMap := [("name", "ethane")] } : Molecule ℚ))
          Molecule.empty).mol.data "name"
        = ({ Molecule.empty with
             atomicNumbers := [6, 8],
             positions3d := [⟨1, 2, 3⟩, ⟨4, 5, 6⟩],
             bonds := [⟨0, 1, 2⟩],
             dataMap := [("name", "ethane")] } : Molecule ℚ).data "name"
      ∧ (read (1 : ℚ) (fun _ v => v)
          (write (1 : ℚ) (fun _ v => v)
            ({ Molecule.empty with
               atomicNumbers := [6, 8],
               positions3d := [⟨1, 2, 3⟩, ⟨4, 5, 6⟩],
               bonds := [⟨0, 1, 2⟩],
               dataMap := [("name", "ethane")] } : Molecule ℚ))
          Molecule.empty).mol.data "inchi"
        = ({ Molecule.empty with
             atomicNumbers := [6, 8],
             positions3d := [⟨1, 2, 3⟩, ⟨4, 5, 6⟩],
             bonds := [⟨0, 1, 2⟩],
             dataMap := [("name", "ethane")] } : Molecule ℚ).data "inchi") :=
  ⟨by decide,
   C1_round_trip (1 : ℚ) 1 (by norm_num) (fun _ v => v) (fun _ v => v)
     (fun c v => rfl)
     (JValue.obj
       [("chemical json", JValue.num 0),
        ("name", JValue.str "ethane"),
        ("atoms", JValue.obj
          [("elements", JValue.obj
            [("number", JValue.arr [JValue.num 6, JValue.num 8])]),
           ("coords", JValue.obj
             [("3d", JValue.arr
               [JValue.num 1, JValue.num 2, JValue.num 3,
                JValue.num 4, JValue.num 5, JValue.num 6])])]),
        ("bonds", JValue.obj
          [("connections", JValue.obj
            [("index", JValue.arr [JValue.num 0, JValue.num 1])]),
           ("order", JValue.arr [JValue.num 2])])])
     ({ Molecule.empty with
        atomicNumbers := [6, 8],
        positions3d := [⟨1, 2, 3⟩, ⟨4, 5, 6⟩],
        bonds := [⟨0, 1, 2⟩],
        dataMap := [("name", "ethane")] } : Molecule ℚ) []
     (by decide) (by decide)⟩

end Claims

end CJson
